import Mathlib

/-!
Verification of the column-inference and aggregation engine of
`categoria_analysis.py` (call-center Excel category analyzer).

Modelling conventions (shallow embedding):
* Python strings are modelled as `Str := List Char`; cell values are
  `Cell := Option Str` (`none` models NaN / null, everything else is the
  stringified cell content, mirroring the source's `str(value)` calls).
* `Counter` is an insertion-ordered association list from key to count,
  mirroring `collections.Counter` built by repeated increments / `update`.
* pandas data frames are `DataFrame`: ordered columns (name plus an
  "object dtype" flag) and rows of cells.
* Real arithmetic (`Frecuencia / Total * 100`) is modelled exactly in `ℚ`.
-/

abbrev Str : Type := List Char

/-- Convert a Lean string literal to the `List Char` model. -/
def chars (s : String) : Str := s.data

/-- Python `str.strip()` whitespace predicate (common whitespace). -/
def isPyWS (c : Char) : Bool :=
  c = ' ' || c = '\t' || c = '\n' || c = '\r' || c = Char.ofNat 11 || c = Char.ofNat 12

/-- Python `str.strip()`. -/
def pyStrip (s : Str) : Str :=
  ((s.dropWhile isPyWS).reverse.dropWhile isPyWS).reverse

/-- Python `str.lower()` (ASCII model). -/
def pyLower (s : Str) : Str := s.map Char.toLower

/-- Python `str.upper()` (ASCII model). -/
def pyUpper (s : Str) : Str := s.map Char.toUpper

/-- Python substring test `needle in hay` (contiguous substring). -/
def isSubstrOf (needle : Str) : Str → Bool
  | [] => needle.isEmpty
  | c :: t => needle.isPrefixOf (c :: t) || isSubstrOf needle t

/-- A cell of the spreadsheet: `none` is NaN/null, otherwise the
stringified content. -/
abbrev Cell : Type := Option Str

/-! ### `collections.Counter` model

An insertion-ordered association list from key to count.  `inc` mirrors
`counter[k] += 1`, `addN` mirrors `counter[k] += n` (used by
`Counter.update`), `counterOfList` mirrors `Counter(iterable)`. -/

abbrev Counter : Type := List (Str × Nat)

namespace Counter

/-- Dict lookup with default 0 (`counter[k]`). -/
def cnt : Counter → Str → Nat
  | [], _ => 0
  | (k', n) :: t, k => if k' = k then n else cnt t k

/-- `counter[k] += 1`, inserting the key at the end if absent. -/
def inc : Counter → Str → Counter
  | [], k => [(k, 1)]
  | (k', n) :: t, k => if k' = k then (k', n + 1) :: t else (k', n) :: inc t k

/-- `counter[k] += n`, inserting the key at the end if absent. -/
def addN : Counter → Str → Nat → Counter
  | [], k, n => [(k, n)]
  | (k', m) :: t, k, n => if k' = k then (k', m + n) :: t else (k', m) :: addN t k n

/-- `Counter.update`: add the counts of `b` into `a`, key-wise. -/
def update (a b : Counter) : Counter :=
  b.foldl (fun acc kv => addN acc kv.1 kv.2) a

/-- Sum of all stored counts. -/
def total (c : Counter) : Nat := (c.map (·.2)).sum

/-- Total weight a counter (possibly with duplicate keys) carries for one
key; for well-formed counters this equals `cnt`. -/
def weight (b : Counter) (k : Str) : Nat :=
  ((b.filter (fun kv => decide (kv.1 = k))).map (·.2)).sum

end Counter

/-- `Counter(iterable)` built by successive increments. -/
def counterOfList (l : List Str) : Counter := l.foldl Counter.inc []

/-! ### Column matcher (`normalize_column_name`, `find_matching_columns`) -/

/-- Accent folding for the characters NFKD decomposes into a base letter
plus a combining mark (model of `unicodedata.normalize('NFKD', ...)`
followed by dropping combining characters, for the character repertoire
appearing in this system's column names). -/
def foldAccent (c : Char) : Char :=
  if c = 'á' || c = 'Á' then 'a'
  else if c = 'é' || c = 'É' then 'e'
  else if c = 'í' || c = 'Í' then 'i'
  else if c = 'ó' || c = 'Ó' then 'o'
  else if c = 'ú' || c = 'ü' || c = 'Ú' || c = 'Ü' then 'u'
  else if c = 'ñ' || c = 'Ñ' then 'n'
  else c

/-- `normalize_column_name`: strip accents, lower-case, keep only
alphanumeric characters.  `none` (a null name) normalizes to `""`. -/
def normalize_column_name (name : Option Str) : Str :=
  match name with
  | none => []
  | some s => ((s.map foldAccent).map Char.toLower).filter Char.isAlphanum

/-- One spreadsheet column: its header plus pandas' `object` dtype flag
(used by the non-numeric fallback of `identify_category_column`). -/
structure Column where
  name : Str
  objectDtype : Bool
deriving DecidableEq

/-- A pandas DataFrame: ordered columns and rows of cells (each row
aligned positionally with `cols`). -/
structure DataFrame where
  cols : List Column
  rows : List (List Cell)
deriving DecidableEq

/-- `find_matching_columns`: columns whose normalized name equals,
contains, or is contained in the normalized target (original order). -/
def find_matching_columns (df : DataFrame) (target : Str) : List Str :=
  let normTarget := normalize_column_name (some target)
  (df.cols.filter fun c =>
    let normCol := normalize_column_name (some c.name)
    !normCol.isEmpty &&
      (decide (normTarget = normCol) || isSubstrOf normTarget normCol ||
        isSubstrOf normCol normTarget)).map (·.name)

/-! ### Date parser (`parse_datetime_value` and its two regexes)

`PyDateTime` models a `datetime.datetime`; the regex scanners model
`re.search` (leftmost match) of the source's two fixed-shape patterns. -/

structure PyDateTime where
  year : Nat
  month : Nat
  day : Nat
  hour : Nat
  minute : Nat
  second : Nat
deriving DecidableEq

/-- Chronological comparison (field-lexicographic, as for `datetime`). -/
def PyDateTime.le (a b : PyDateTime) : Bool :=
  if a.year ≠ b.year then a.year < b.year
  else if a.month ≠ b.month then a.month < b.month
  else if a.day ≠ b.day then a.day < b.day
  else if a.hour ≠ b.hour then a.hour < b.hour
  else if a.minute ≠ b.minute then a.minute < b.minute
  else a.second ≤ b.second

/-- Numeric value of a run of digit characters. -/
def digitsToNat (l : List Char) : Nat :=
  l.foldl (fun acc c => acc * 10 + (c.toNat - '0'.toNat)) 0

/-- The six capture groups of `DATE_WITH_TIME_REGEX` as numbers. -/
abbrev DTGroups : Type := Nat × Nat × Nat × Nat × Nat × Nat

/-- Match `DATE_WITH_TIME_REGEX`
(`(\d{4}-\d{2}-\d{2})[ _T-](\d{2})[-:](\d{2})[-:](\d{2})`) at the head of
the string. -/
def matchDateTimeAt : Str → Option DTGroups
  | y1 :: y2 :: y3 :: y4 :: d1 :: m1 :: m2 :: d2 :: a1 :: a2 :: s1 :: h1 :: h2 ::
      s2 :: n1 :: n2 :: s3 :: c1 :: c2 :: _ =>
    if y1.isDigit && y2.isDigit && y3.isDigit && y4.isDigit && d1 = '-' &&
        m1.isDigit && m2.isDigit && d2 = '-' && a1.isDigit && a2.isDigit &&
        (s1 = ' ' || s1 = '_' || s1 = 'T' || s1 = '-') &&
        h1.isDigit && h2.isDigit && (s2 = '-' || s2 = ':') &&
        n1.isDigit && n2.isDigit && (s3 = '-' || s3 = ':') &&
        c1.isDigit && c2.isDigit then
      some (digitsToNat [y1, y2, y3, y4], digitsToNat [m1, m2],
        digitsToNat [a1, a2], digitsToNat [h1, h2], digitsToNat [n1, n2],
        digitsToNat [c1, c2])
    else none
  | _ => none

/-- `DATE_WITH_TIME_REGEX.search`: leftmost match anywhere in the string. -/
def searchDateTime : Str → Option DTGroups
  | [] => none
  | c :: t =>
    match matchDateTimeAt (c :: t) with
    | some g => some g
    | none => searchDateTime t

/-- Match `DATE_ONLY_REGEX` (`(\d{4}-\d{2}-\d{2})`) at the head. -/
def matchDateOnlyAt : Str → Option (Nat × Nat × Nat)
  | y1 :: y2 :: y3 :: y4 :: d1 :: m1 :: m2 :: d2 :: a1 :: a2 :: _ =>
    if y1.isDigit && y2.isDigit && y3.isDigit && y4.isDigit && d1 = '-' &&
        m1.isDigit && m2.isDigit && d2 = '-' && a1.isDigit && a2.isDigit then
      some (digitsToNat [y1, y2, y3, y4], digitsToNat [m1, m2],
        digitsToNat [a1, a2])
    else none
  | _ => none

/-- `DATE_ONLY_REGEX.search`: leftmost match anywhere in the string. -/
def searchDateOnly : Str → Option (Nat × Nat × Nat)
  | [] => none
  | c :: t =>
    match matchDateOnlyAt (c :: t) with
    | some g => some g
    | none => searchDateOnly t

/-- Gregorian month length, as validated by `datetime.strptime`. -/
def daysInMonth (y m : Nat) : Nat :=
  if m = 2 then
    if (y % 4 = 0 && y % 100 ≠ 0) || y % 400 = 0 then 29 else 28
  else if m = 4 || m = 6 || m = 9 || m = 11 then 30
  else 31

/-- `datetime.strptime(_, "%Y-%m-%d %H:%M:%S")` on the captured groups:
`some` on a valid calendar datetime, `none` models the `ValueError` the
source swallows with `pass`. -/
def strptimeDateTime (g : DTGroups) : Option PyDateTime :=
  let (y, mo, d, h, mi, s) := g
  if 1 ≤ y && 1 ≤ mo && mo ≤ 12 && 1 ≤ d && d ≤ daysInMonth y mo &&
      h ≤ 23 && mi ≤ 59 && s ≤ 59 then
    some ⟨y, mo, d, h, mi, s⟩
  else none

/-- `datetime.strptime(_, "%Y-%m-%d")` on the captured date group. -/
def strptimeDateOnly (g : Nat × Nat × Nat) : Option PyDateTime :=
  let (y, mo, d) := g
  if 1 ≤ y && 1 ≤ mo && mo ≤ 12 && 1 ≤ d && d ≤ daysInMonth y mo then
    some ⟨y, mo, d, 0, 0, 0⟩
  else none

/-- First parsing layer of `parse_datetime_value`: datetime regex, then
strict parse, falling through on no match or `ValueError`. -/
def tryDateTimeLayer (s : Str) : Option PyDateTime :=
  (searchDateTime s).bind strptimeDateTime

/-- Second parsing layer: date-only regex, then strict parse. -/
def tryDateOnlyLayer (s : Str) : Option PyDateTime :=
  (searchDateOnly s).bind strptimeDateOnly

/-- Model of the external library call
`pd.to_datetime(value_str, errors='coerce')` (third, lenient layer): the
full trimmed string as an ISO date or datetime, `none` (NaT) otherwise.
This models only the library's behavior; it is not repository code. -/
def pd_to_datetime_coerce (s : Str) : Option PyDateTime :=
  let t := pyStrip s
  if t.length = 10 then (matchDateOnlyAt t).bind strptimeDateOnly
  else if t.length = 19 then (matchDateTimeAt t).bind strptimeDateTime
  else none

/-- `parse_datetime_value`: null → NaT; else datetime regex layer, then
date-only regex layer, then the lenient coercion.  Total — the modelled
function never raises, mirroring the source's catch-all around the third
layer and `pass` on the strict parses. -/
def parse_datetime_value (v : Cell) : Option PyDateTime :=
  match v with
  | none => none
  | some s =>
    match tryDateTimeLayer s with
    | some dt => some dt
    | none =>
      match tryDateOnlyLayer s with
      | some dt => some dt
      | none => pd_to_datetime_coerce s

/-! ### Column identifiers and the date-range filter -/

/-- `CATEGORY_COLUMNS` (general category synonym list). -/
def CATEGORY_COLUMNS : List Str :=
  [chars "categoria", chars "categoría", chars "category", chars "tipo",
   chars "type", chars "motivo", chars "reason", chars "clasificacion",
   chars "clasificación", chars "resultado", chars "result", chars "estado",
   chars "status", chars "categoria_principal", chars "categoria_secundaria",
   chars "categoria_final", chars "categoria_detectada"]

/-- `SPECIFIC_CATEGORY_COLUMNS` (detailed category/subtype candidates). -/
def SPECIFIC_CATEGORY_COLUMNS : List Str :=
  [chars "categoria_general", chars "categoria_especifica",
   chars "subtipo_categoria", chars "categoria_especifica_1",
   chars "subtipo_categoria_1", chars "categoria_especifica_2",
   chars "subtipo_categoria_2", chars "categoria_especifica_3",
   chars "subtipo_categoria_3", chars "categoria", chars "tipo",
   chars "motivo", chars "subcategoria", chars "subtipo"]

/-- `INSTALLER_COLUMNS` (installer agent synonym list). -/
def INSTALLER_COLUMNS : List Str :=
  [chars "agente_instalador", chars "instalador", chars "tecnico_instalador",
   chars "tecnico", chars "agenteinstalador", chars "instalador_agente"]

/-- Index of a column name in the frame (first occurrence). -/
def colIndex (df : DataFrame) (name : Str) : Nat :=
  df.cols.findIdx (fun c => decide (c.name = name))

/-- Positional cell access within a row (missing → null). -/
def cellAt (row : List Cell) (i : Nat) : Cell := row.getD i none

/-- The cell series of a named column (`df[name]`). -/
def colCells (df : DataFrame) (name : Str) : List Cell :=
  df.rows.map (fun r => cellAt r (colIndex df name))

/-- `df[name].dropna()`. -/
def nonNullCells (df : DataFrame) (name : Str) : List Str :=
  (colCells df name).filterMap id

/-- `identify_category_column`: synonym matching via
`find_matching_columns` (first target with a match wins), then keyword
containment in the normalized name, then the first `object`-dtype column
whose lower-cased name has no id/date/time-like prefix. -/
def identify_category_column (df : DataFrame) : Option Str :=
  let candidates := chars "categoria_general" :: CATEGORY_COLUMNS
  match candidates.findSome? (fun t => (find_matching_columns df t).head?) with
  | some c => some c
  | none =>
    let keywords := [chars "categoria", chars "category", chars "tipo",
      chars "motivo"]
    match df.cols.find? (fun c =>
        keywords.any (fun kw =>
          isSubstrOf kw (normalize_column_name (some c.name)))) with
    | some c => some c.name
    | none =>
      let prefixes := [chars "id", chars "fecha", chars "date", chars "hora",
        chars "time"]
      match df.cols.find? (fun c =>
          c.objectDtype &&
            !(prefixes.any (fun p => p.isPrefixOf (pyLower c.name)))) with
      | some c => some c.name
      | none => none

/-- `identify_date_column`: exact lower-cased name from a fixed list,
then keyword containment in the normalized name, then the first column
whose first non-null value matches one of the two date regexes. -/
def identify_date_column (df : DataFrame) : Option Str :=
  let dateNames := [chars "fecha", chars "date", chars "fecha_llamada",
    chars "fecha_hora", chars "timestamp", chars "fecha_inicio",
    chars "fecha_fin", chars "fecha_creacion", chars "created_date",
    chars "dia", chars "day", chars "fecha_registro", chars "fecha_contacto",
    chars "archivo_procesado"]
  match dateNames.findSome? (fun t =>
      (df.cols.find? (fun c => decide (pyLower c.name = t))).map (·.name)) with
  | some c => some c
  | none =>
    let keywords := [chars "fecha", chars "date", chars "dia", chars "time",
      chars "archivo"]
    match df.cols.find? (fun c =>
        keywords.any (fun kw =>
          isSubstrOf kw (normalize_column_name (some c.name)))) with
    | some c => some c.name
    | none =>
      df.cols.findSome? (fun c =>
        match (nonNullCells df c.name).head? with
        | none => none
        | some v =>
          if (searchDateTime v).isSome || (searchDateOnly v).isSome then
            some c.name
          else none)

/-- `identify_installer_column`: installer synonym list via
`find_matching_columns`, then keyword containment. -/
def identify_installer_column (df : DataFrame) : Option Str :=
  match INSTALLER_COLUMNS.findSome? (fun t =>
      (find_matching_columns df t).head?) with
  | some c => some c
  | none =>
    let keywords := [chars "instalador", chars "tecnico", chars "agente"]
    (df.cols.find? (fun c =>
      keywords.any (fun kw =>
        isSubstrOf kw (normalize_column_name (some c.name))))).map (·.name)

/-- The analyzer's date-filter configuration (`start_date`, `end_date`). -/
structure Config where
  start_date : Option PyDateTime
  end_date : Option PyDateTime

/-- The analyzer configured with no date bounds. -/
def noFilter : Config := ⟨none, none⟩

/-- Row predicate of `filter_by_date_range`: both active bounds must
hold on the parsed date; a NaT parse fails every active bound. -/
def dateInRange (cfg : Config) (d : Option PyDateTime) : Bool :=
  (match cfg.start_date with
   | none => true
   | some s => match d with
     | none => false
     | some dv => s.le dv) &&
  (match cfg.end_date with
   | none => true
   | some e => match d with
     | none => false
     | some dv => dv.le e)

/-- `filter_by_date_range`: no bounds → unchanged; no identifiable date
column → unchanged (logged warning); else keep rows whose parsed date
satisfies every active bound. -/
def filter_by_date_range (cfg : Config) (df : DataFrame) : DataFrame :=
  if cfg.start_date.isNone && cfg.end_date.isNone then df
  else
    match identify_date_column df with
    | none => df
    | some c =>
      { df with
        rows := df.rows.filter (fun r =>
          dateInRange cfg (parse_datetime_value (cellAt r (colIndex df c)))) }

/-! ### Combined routes (`analyze_combined_categories`)

`pyJoinSep` is Python's `" | ".join(parts)`; `pySplitSep` is
`full_route.split(" | ")` with leftmost-occurrence semantics. -/

/-- The fixed route separator `" | "`. -/
def routeSep : Str := [' ', '|', ' ']

/-- `" | ".join(parts)`. -/
def pyJoinSep : List Str → Str
  | [] => []
  | [p] => p
  | p :: q :: t => p ++ routeSep ++ pyJoinSep (q :: t)

/-- Leftmost occurrence of `" | "`: the text before it and the text
after it, or `none` when the separator does not occur. -/
def findOccSep : Str → Option (Str × Str)
  | [] => none
  | c :: t =>
    if routeSep.isPrefixOf (c :: t) then some ([], (c :: t).drop 3)
    else (findOccSep t).map (fun pr => (c :: pr.1, pr.2))

/-- Fuel-driven splitting loop (the fuel strictly exceeds the string
length, which `findOccSep_shrinks` makes sufficient). -/
def pySplitSepGo : Nat → Str → List Str
  | 0, s => [s]
  | fuel + 1, s =>
    match findOccSep s with
    | none => [s]
    | some (p, rest) => p :: pySplitSepGo fuel rest

/-- `full_route.split(" | ")` (Python `str.split` with a fixed
separator): repeatedly cut at the leftmost occurrence. -/
def pySplitSep (s : Str) : List Str := pySplitSepGo (s.length + 1) s

/-- One Combined Route Record (`combined_details` entry). -/
structure RouteRecord where
  categoria_general : Str
  categoria_especifica : Str
  subtipo : Str
  ruta_completa : Str
  agente_instalador : Str
deriving DecidableEq

/-- The unassigned-installer sentinel `"Sin asignar"`. -/
def sinAsignar : Str := chars "Sin asignar"

/-- The column scan of `analyze_combined_categories`: the (last) column
whose lower-cased name is exactly `categoria_general`, the columns
containing `categoria_especifica`, and those containing
`subtipo_categoria` (an `elif` chain over the columns in order). -/
def classifyCombinedCols (cols : List Column) : Option Str × List Str × List Str :=
  cols.foldl
    (fun st c =>
      let l := pyLower c.name
      if l = chars "categoria_general" then (some c.name, st.2.1, st.2.2)
      else if isSubstrOf (chars "categoria_especifica") l then
        (st.1, st.2.1 ++ [c.name], st.2.2)
      else if isSubstrOf (chars "subtipo_categoria") l then
        (st.1, st.2.1, st.2.2 ++ [c.name])
      else st)
    (none, [], [])

/-- First non-null cell among the named columns, in column order. -/
def firstNonNullIn (df : DataFrame) (names : List Str) (row : List Cell) :
    Option Str :=
  names.findSome? (fun n => cellAt row (colIndex df n))

/-- The installer value resolved for one row: trimmed cell of the
identified installer column, or the `"Sin asignar"` sentinel when the
column is absent or the cell is null/blank. -/
def installerValueFor (df : DataFrame) (instCol : Option Str)
    (row : List Cell) : Str :=
  match instCol with
  | none => sinAsignar
  | some c =>
    match cellAt row (colIndex df c) with
    | none => sinAsignar
    | some raw => if pyStrip raw = [] then sinAsignar else pyStrip raw

/-- The route parts built for one row: trimmed general value, then the
first non-null specific-category value, then the first non-null subtype
value (`none` when the general cell is null). -/
def combinedPartsOfRow (df : DataFrame) (gname : Str) (espNames subNames : List Str)
    (row : List Cell) : Option (List Str) :=
  match cellAt row (colIndex df gname) with
  | none => none
  | some g =>
    some ([pyStrip g] ++
      (match firstNonNullIn df espNames row with
       | some v => [pyStrip v]
       | none => []) ++
      (match firstNonNullIn df subNames row with
       | some v => [pyStrip v]
       | none => []))

/-- Build a Combined Route Record from the parts list: the record fields
are positional (`parts[1]`, `parts[2]` with `''` defaults), the route is
the `" | "` join. -/
def recordOfParts (parts : List Str) (inst : Str) : RouteRecord :=
  { categoria_general := parts.getD 0 []
    categoria_especifica := parts.getD 1 []
    subtipo := parts.getD 2 []
    ruta_completa := pyJoinSep parts
    agente_instalador := inst }

/-- Per-row record emission: skip null general cells; emit only when the
parts go beyond the general category alone. -/
def rowRecordOf (df : DataFrame) (gname : Str) (espNames subNames : List Str)
    (instCol : Option Str) (row : List Cell) : Option RouteRecord :=
  match combinedPartsOfRow df gname espNames subNames row with
  | none => none
  | some parts =>
    if 1 < parts.length then
      some (recordOfParts parts (installerValueFor df instCol row))
    else none

/-- `analyze_combined_categories`: route frequency counter plus the list
of Combined Route Records, scanning rows in order. -/
def analyze_combined_categories (df : DataFrame) : Counter × List RouteRecord :=
  let cl := classifyCombinedCols df.cols
  let inst := identify_installer_column df
  match cl.1 with
  | none => ([], [])
  | some gname =>
    let dets := df.rows.filterMap (rowRecordOf df gname cl.2.1 cl.2.2 inst)
    (counterOfList (dets.map (·.ruta_completa)), dets)

/-! ### Installer breakdown (`generate_installer_breakdown`) -/

/-- One Installer Breakdown record; `porcentaje_agente` is the exact
rational value of `Frecuencia / Total_Agente * 100`. -/
structure InstallerRecord where
  agente_instalador : Str
  categoria_general : Str
  categoria_especifica : Str
  subtipo : Str
  ruta_completa : Str
  frecuencia : Nat
  porcentaje_agente : ℚ
deriving DecidableEq

/-- The 5-part grouping key of the breakdown. -/
abbrev GroupKey : Type := Str × Str × Str × Str × Str

/-- Grouping key of one route record. -/
def keyOfRecord (r : RouteRecord) : GroupKey :=
  (r.agente_instalador, r.categoria_general, r.categoria_especifica,
    r.subtipo, r.ruta_completa)

/-- The detail records that survive the `!= 'Sin asignar'` filter. -/
def installerFiltered (details : List RouteRecord) : List RouteRecord :=
  details.filter (fun r => decide (r.agente_instalador ≠ sinAsignar))

/-- The distinct grouping keys (`groupby`). -/
def installerKeys (details : List RouteRecord) : List GroupKey :=
  ((installerFiltered details).map keyOfRecord).dedup

/-- Group size (`.size()`, the `Frecuencia` column). -/
def installerFreq (details : List RouteRecord) (k : GroupKey) : Nat :=
  ((installerFiltered details).map keyOfRecord).count k

/-- `Total_Agente`: sum of the group frequencies of one agent. -/
def installerAgentTotal (details : List RouteRecord) (a : Str) : Nat :=
  (((installerKeys details).filter (fun k => decide (k.1 = a))).map
    (installerFreq details)).sum

/-- One output record of the breakdown for a grouping key. -/
def mkInstallerRecord (details : List RouteRecord) (k : GroupKey) :
    InstallerRecord :=
  { agente_instalador := k.1
    categoria_general := k.2.1
    categoria_especifica := k.2.2.1
    subtipo := k.2.2.2.1
    ruta_completa := k.2.2.2.2
    frecuencia := installerFreq details k
    porcentaje_agente :=
      (installerFreq details k : ℚ) / (installerAgentTotal details k.1 : ℚ) * 100 }

/-- Lexicographic string order (Python `<` on strings, by code point). -/
def strLtB : Str → Str → Bool
  | [], [] => false
  | [], _ :: _ => true
  | _ :: _, [] => false
  | a :: s, b :: t => if a < b then true else if a = b then strLtB s t else false

/-- `sort_values(by=['agente_instalador', 'Frecuencia'],
ascending=[True, False])` as a comparison. -/
def breakdownLe (x y : InstallerRecord) : Bool :=
  if x.agente_instalador = y.agente_instalador then
    y.frecuencia ≤ x.frecuencia
  else strLtB x.agente_instalador y.agente_instalador

/-- Sorted insertion (used to model the final sort; only the fact that
sorting permutes is used by the theorems). -/
def insertSorted (le : α → α → Bool) (a : α) : List α → List α
  | [] => [a]
  | b :: t => if le a b then a :: b :: t else b :: insertSorted le a t

/-- Insertion sort. -/
def isortBy (le : α → α → Bool) : List α → List α
  | [] => []
  | a :: t => insertSorted le a (isortBy le t)

/-- `generate_installer_breakdown`: drop unassigned records, group by
(agent, general, specific, subtype, route), count, attach each group's
share of its agent's total, sort by agent then descending frequency. -/
def generate_installer_breakdown (details : List RouteRecord) :
    List InstallerRecord :=
  if details.isEmpty then []
  else if (installerFiltered details).isEmpty then []
  else
    isortBy breakdownLe
      ((installerKeys details).map (mkInstallerRecord details))

/-- `split_comma_categories` (defined in the source but deliberately not
called by `analyze_excel_file`): expands comma-separated cells. -/
def split_comma_categories (cells : List Cell) : List Str :=
  (cells.filterMap id).flatMap (fun v =>
    let s := pyStrip v
    if s.contains ',' then
      ((s.splitOn ',').map pyStrip).filter (fun p => !p.isEmpty)
    else [s])

/-! ### Detailed-analysis bundle and the per-file / multi-file pipeline -/

/-- A value of the detailed-analysis dict: a frequency counter, a list
of Combined Route Records, or an Installer Breakdown list. -/
inductive BundleVal where
  | counter (c : Counter)
  | routes (l : List RouteRecord)
  | breakdown (l : List InstallerRecord)
deriving DecidableEq

/-- The detailed-analysis dict: insertion-ordered, unique keys. -/
abbrev Bundle : Type := List (Str × BundleVal)

/-- Dict lookup. -/
def lookupBundle (b : Bundle) (k : Str) : Option BundleVal :=
  (b.find? (fun e => decide (e.1 = k))).map (·.2)

/-- Dict assignment `b[k] = v` (replace, else append). -/
def setBundle : Bundle → Str → BundleVal → Bundle
  | [], k, v => [(k, v)]
  | (k', v') :: t, k, v =>
    if k' = k then (k, v) :: t else (k', v') :: setBundle t k v

/-- The route-record list a bundle holds at a key (empty when the key is
absent or holds another shape). -/
def routesAt (b : Bundle) (k : Str) : List RouteRecord :=
  match lookupBundle b k with
  | some (.routes l) => l
  | _ => []

/-- The installer-breakdown list a bundle holds at a key (empty when the
key is absent or holds another shape). -/
def breakdownAt (b : Bundle) (k : Str) : List InstallerRecord :=
  match lookupBundle b k with
  | some (.breakdown l) => l
  | _ => []

/-- `analyze_detailed_categories`: per-column counters for the
`SPECIFIC_CATEGORY_COLUMNS` candidates (skipping already-processed and
all-null columns), then the combined-route entries and, when an
installer column exists and the breakdown is non-empty, the installer
breakdown. -/
def analyze_detailed_categories (df : DataFrame) : Bundle :=
  let st := SPECIFIC_CATEGORY_COLUMNS.foldl
    (fun st target =>
      (find_matching_columns df target).foldl
        (fun (st : List Str × Bundle) m =>
          if st.1.contains m then st
          else
            let raw := nonNullCells df m
            if raw.isEmpty then st
            else
              (m :: st.1,
                setBundle st.2 m (.counter (counterOfList (raw.map pyStrip)))))
        st)
    ([], [])
  let b := st.2
  let comb := analyze_combined_categories df
  let b :=
    if !comb.1.isEmpty then
      setBundle b (chars "categoria_combinada") (.counter comb.1)
    else b
  if comb.2.isEmpty then b
  else
    let b := setBundle b (chars "categoria_combinada_detalle") (.routes comb.2)
    match identify_installer_column df with
    | none => b
    | some _ =>
      let ib := generate_installer_breakdown comb.2
      if ib.isEmpty then b
      else setBundle b (chars "agente_instalador_detalle") (.breakdown ib)

/-- The per-file result triple: general-category counter, processed row
count, detailed-analysis bundle. -/
abbrev AnalysisTriple : Type := Counter × Nat × Bundle

/-- A file input: reading and processing may fail (`.error` models any
exception raised inside the per-file `try`). -/
abbrev ExcelInput : Type := Except Str DataFrame

/-- The `try` body of `analyze_excel_file`: empty file → empty triple;
date filter; empty after filtering → empty triple; no category column →
`(∅, row count, ∅)`; no non-null category values → `(∅, row count, ∅)`;
else the trimmed frequency counter (no comma expansion), the filtered
row count, and the detailed bundle. -/
def analyze_excel_df (cfg : Config) (df : DataFrame) : AnalysisTriple :=
  if df.rows.isEmpty then ([], 0, [])
  else if (filter_by_date_range cfg df).rows.isEmpty then ([], 0, [])
  else
    match identify_category_column (filter_by_date_range cfg df) with
    | none => ([], (filter_by_date_range cfg df).rows.length, [])
    | some cname =>
      if (nonNullCells (filter_by_date_range cfg df) cname).isEmpty then
        ([], (filter_by_date_range cfg df).rows.length, [])
      else
        (counterOfList
            ((nonNullCells (filter_by_date_range cfg df) cname).map pyStrip),
          (filter_by_date_range cfg df).rows.length,
          analyze_detailed_categories (filter_by_date_range cfg df))

/-- `analyze_excel_file`: the per-file `try` body (`analyze_excel_df`)
with any raised error caught and turned into the empty triple. -/
def analyze_excel_file (cfg : Config) (file : ExcelInput) : AnalysisTriple :=
  match file with
  | .error _ => ([], 0, [])
  | .ok df => analyze_excel_df cfg df

/-- The value stored at a key after merging one file's value `v` into
what the accumulator already holds there: counters merge by
`Counter.update`, lists extend.  (On a shape mismatch the source would
raise `AttributeError`; that case is modelled as a fresh-start merge and
is excluded by the shape hypotheses of the theorems that use merging.) -/
def mergeValAt (v : BundleVal) (old : Option BundleVal) : BundleVal :=
  match v, old with
  | .counter c, some (.counter c0) => .counter (c0.update c)
  | .counter c, _ => .counter (Counter.update [] c)
  | .routes l, some (.routes l0) => .routes (l0 ++ l)
  | .routes l, _ => .routes l
  | .breakdown l, some (.breakdown l0) => .breakdown (l0 ++ l)
  | .breakdown l, _ => .breakdown l

/-- Merge one file's bundle value into the accumulated bundle at a key. -/
def mergeBundleEntry (acc : Bundle) (k : Str) (v : BundleVal) : Bundle :=
  setBundle acc k (mergeValAt v (lookupBundle acc k))

/-- Merge a whole file bundle into the accumulator, key by key in the
file bundle's order. -/
def mergeBundle (acc file : Bundle) : Bundle :=
  file.foldl (fun acc e => mergeBundleEntry acc e.1 e.2) acc

/-- Accumulation step of `analyze_multiple_files`. -/
def mergeTriple (acc t : AnalysisTriple) : AnalysisTriple :=
  (acc.1.update t.1, acc.2.1 + t.2.1, mergeBundle acc.2.2 t.2.2)

/-- `analyze_multiple_files`: fold the per-file triples into one
session-wide triple, in file order. -/
def analyze_multiple_files (cfg : Config) (files : List ExcelInput) :
    AnalysisTriple :=
  files.foldl (fun acc f => mergeTriple acc (analyze_excel_file cfg f)) ([], 0, [])

/-! ### Report composer (`generate_report`)

Python string formatting is modelled over `ℚ`/`Nat`: `pyComma` is
`f"{n:,}"`, `fmtFix1` is `f"{q:.1f}"` (round half to even), `padLeft` /
`padRight` are the `{:Nd}` / `{:<N}` fills.  `generate_report` returns
`Except`: iterating `detailed_analysis.items()` calls `.most_common` on
every truthy value, which raises `AttributeError` on the list-valued
entries. -/

/-- The single-quote character (`'`). -/
def squote : Char := Char.ofNat 39

/-- Decimal digits of `n`. -/
def natStr (n : Nat) : Str := Nat.toDigits 10 n

/-- Group a reversed digit string in threes with `,`. -/
def commaGroupRev : Str → Str
  | a :: b :: c :: d :: t => a :: b :: c :: ',' :: commaGroupRev (d :: t)
  | l => l

/-- `f"{n:,}"`: thousands separators. -/
def pyComma (n : Nat) : Str := (commaGroupRev (natStr n).reverse).reverse

/-- Left-pad with spaces to a field width. -/
def padLeft (w : Nat) (s : Str) : Str := List.replicate (w - s.length) ' ' ++ s

/-- Right-pad with spaces to a field width. -/
def padRight (w : Nat) (s : Str) : Str := s ++ List.replicate (w - s.length) ' '

/-- Round `q` to the nearest integer, ties to even (IEEE-style, as
Python's float formatting does). -/
def roundHalfEven (q : ℚ) : Int :=
  let f := q.floor
  if q - f < 1 / 2 then f
  else if 1 / 2 < q - f then f + 1
  else if f % 2 = 0 then f else f + 1

/-- `f"{q:.1f}"`. -/
def fmtFix1 (q : ℚ) : Str :=
  let n := roundHalfEven (q * 10)
  let m := n.natAbs
  let core := natStr (m / 10) ++ ('.' :: natStr (m % 10))
  if n < 0 then '-' :: core else core

/-- `Counter.most_common`: entries sorted by descending count (stable on
insertion order), optionally truncated. -/
def Counter.most_common (c : Counter) (n : Option Nat) : List (Str × Nat) :=
  let sorted := isortBy (fun a b => decide (b.2 ≤ a.2)) c
  match n with
  | none => sorted
  | some n => sorted.take n

/-- Truncation of long values in the detailed sections:
`value[:45] + "..." if len(value) > 45 else value`. -/
def display_value (v : Str) : Str :=
  if 45 < v.length then v.take 45 ++ chars "..." else v

/-- A detailed-section line:
`f"{i:3d}. {display_value:<45} {count:4d} ({percentage:5.1f}%)"`. -/
def fmtDetailLine (total_rows : Nat) (i : Nat) (v : Str) (count : Nat) : Str :=
  let percentage : ℚ :=
    if 0 < total_rows then (count : ℚ) / (total_rows : ℚ) * 100 else 0
  padLeft 3 (natStr i) ++ chars ". " ++ padRight 45 (display_value v) ++
    [' '] ++ padLeft 4 (natStr count) ++ chars " (" ++
    padLeft 5 (fmtFix1 percentage) ++ chars "%)"

/-- A general-category ranking line:
`f"{i:2d}. {category:<50} {count:4d} ({percentage:4.1f}%)"`. -/
def fmtCategoryLine (total_rows : Nat) (i : Nat) (category : Str) (count : Nat) :
    Str :=
  let percentage : ℚ :=
    if 0 < total_rows then (count : ℚ) / (total_rows : ℚ) * 100 else 0
  padLeft 2 (natStr i) ++ chars ". " ++ padRight 50 category ++ [' '] ++
    padLeft 4 (natStr count) ++ chars " (" ++ padLeft 4 (fmtFix1 percentage) ++
    chars "%)"

/-- The lines of one `🔍 ANÁLISIS DE '...'` block (top-20 values of one
bundle counter). -/
def detailBlockLines (total_rows : Nat) (name : Str) (c : Counter) : List Str :=
  ('\n' :: chars "🔍 ANÁLISIS DE " ++ [squote] ++ pyUpper name ++ [squote, ':']) ::
    (chars "Valores únicos encontrados: " ++ natStr c.length) ::
    List.replicate 60 '-' ::
    ((c.most_common (some 20)).enum.map
      (fun iv => fmtDetailLine total_rows (iv.1 + 1) iv.2.1 iv.2.2)) ++
    [List.replicate 60 '-']

/-- `"\n".join(lines)`. -/
def joinLinesNL : List Str → Str
  | [] => []
  | [l] => l
  | l :: l2 :: t => l ++ '\n' :: joinLinesNL (l2 :: t)

/-- The message of the `AttributeError` raised when the detailed loop
reaches a list-valued bundle entry. -/
def mostCommonAttrError : Str :=
  chars "AttributeError: " ++ [squote] ++ chars "list" ++ [squote] ++
    chars " object has no attribute " ++ [squote] ++ chars "most_common" ++ [squote]

/-- `generate_report`: header and ranking of all general categories,
then one block per truthy bundle entry.  Reaching a non-empty list
value raises (`.error`), exactly as `column_counter.most_common(20)`
does on a `list` in the source. -/
def generate_report (counter : Counter) (total_rows : Nat)
    (files_processed : Nat) (detailed_analysis : Bundle) : Except Str Str :=
  let all_categories := counter.most_common none
  let total_categories := counter.length
  let head : List Str :=
    [List.replicate 100 '=',
     chars "ANÁLISIS ESPECIALIZADO DE CATEGORÍAS Y SUBTIPOS",
     List.replicate 100 '=',
     chars "Archivos procesados: " ++ natStr files_processed,
     chars "Filas totales analizadas: " ++ pyComma total_rows,
     chars "Categorías generales únicas encontradas: " ++ pyComma total_categories]
  let catSection : List Str :=
    if !all_categories.isEmpty then
      let total_top_50 :=
        if 50 ≤ all_categories.length then
          ((all_categories.take 50).map (·.2)).sum
        else (all_categories.map (·.2)).sum
      let coverage : ℚ :=
        if 0 < total_rows then
          (total_top_50 : ℚ) / (total_rows : ℚ) * 100
        else 0
      (chars "Cobertura de top 50 categorías generales: " ++ fmtFix1 coverage ++
          [Char.ofNat 37]) ::
        (chars "") ::
        (chars "📊 TODAS LAS CATEGORÍAS GENERALES ENCONTRADAS:") ::
        List.replicate 100 '-' ::
        (all_categories.enum.map
          (fun iv => fmtCategoryLine total_rows (iv.1 + 1) iv.2.1 iv.2.2)) ++
        [List.replicate 100 '-',
         chars "Cobertura total de categorías generales: " ++ fmtFix1 coverage ++
           [Char.ofNat 37]]
    else [chars "No se encontraron categorías generales para mostrar."]
  let detSection : Except Str (List Str) :=
    if detailed_analysis.isEmpty then pure []
    else
      detailed_analysis.foldl
        (fun acc e =>
          acc.bind (fun ls =>
            match e.2 with
            | .counter c => pure (if c.isEmpty then ls else ls ++ detailBlockLines total_rows e.1 c)
            | .routes l => if l.isEmpty then pure ls else .error mostCommonAttrError
            | .breakdown l => if l.isEmpty then pure ls else .error mostCommonAttrError))
        (pure [chars "", List.replicate 100 '=',
          chars "ANÁLISIS DETALLADO DE CATEGORÍAS Y SUBTIPOS",
          List.replicate 100 '='])
  match detSection with
  | .error e => .error e
  | .ok det =>
    .ok (joinLinesNL (head ++ catSection ++ det ++ [List.replicate 100 '=']))

/-! ### Concrete inputs used by witnesses and counterexamples -/

/-- A file with one general-category column and a comma-containing cell. -/
def dfBilling : DataFrame :=
  { cols := [⟨chars "categoria_general", true⟩],
    rows := [[some (chars "Billing, Support")], [none], [some (chars "Billing")]] }

/-- A file with general and specific category columns (clean values). -/
def dfRouteWitness : DataFrame :=
  { cols := [⟨chars "categoria_general", true⟩,
             ⟨chars "categoria_especifica", true⟩],
    rows := [[some (chars "Red"), some (chars "Slow")]] }

/-- A file whose general-category cell itself contains `" | "`. -/
def dfRouteCex : DataFrame :=
  { cols := [⟨chars "categoria_general", true⟩,
             ⟨chars "categoria_especifica", true⟩],
    rows := [[some (chars "A | B"), some (chars "C")]] }

/-- A file with a null specific category but a non-null subtype. -/
def dfSubtypeWitness : DataFrame :=
  { cols := [⟨chars "categoria_general", true⟩,
             ⟨chars "categoria_especifica", true⟩,
             ⟨chars "subtipo_categoria", true⟩],
    rows := [[some (chars "Red"), none, some (chars "Hot")]] }

/-- A 100-row file whose single numeric column cannot be identified as a
category column. -/
def df100 : DataFrame :=
  { cols := [⟨chars "zzz", false⟩],
    rows := List.replicate 100 [some (chars "7")] }

/-- A file with a date column, two boundary rows and one garbage row. -/
def dfDates : DataFrame :=
  { cols := [⟨chars "fecha", true⟩, ⟨chars "categoria_general", true⟩],
    rows := [[some (chars "2025-01-01"), some (chars "A")],
             [some (chars "2025-01-31"), some (chars "B")],
             [some (chars "garbage"), some (chars "C")]] }

/-- January 2025, both bounds active. -/
def cfgJan : Config := ⟨some ⟨2025, 1, 1, 0, 0, 0⟩, some ⟨2025, 1, 31, 0, 0, 0⟩⟩

/-- A bundle holding a non-empty route-record detail list (the shape
`analyze_excel_file` produces under `categoria_combinada_detalle`). -/
def bundleRoutesCrash : Bundle :=
  [(chars "categoria_combinada_detalle",
    .routes [recordOfParts [chars "Red", chars "Slow"] sinAsignar])]

/-- A bundle holding a non-empty installer-breakdown list. -/
def bundleBreakdownCrash : Bundle :=
  [(chars "agente_instalador_detalle",
    .breakdown [⟨chars "Bob", chars "Red", chars "Slow", [],
      chars "Red | Slow", 1, 100⟩])]

/-- A bundle holds a route-list-compatible value at a key: nothing, or a
route-record list (the shapes `mergeBundle` concatenates; any other
shape would make the source raise `AttributeError`). -/
def routesShape (b : Bundle) (k : Str) : Prop :=
  lookupBundle b k = none ∨ ∃ l, lookupBundle b k = some (.routes l)

/-- Decidable check for `routesShape`. -/
def routesShapeOk (b : Bundle) (k : Str) : Bool :=
  match lookupBundle b k with
  | none => true
  | some (.routes _) => true
  | _ => false

/-- A bundle holds a breakdown-list-compatible value at a key: nothing,
or an installer-breakdown list (the other list shape `mergeBundle`
concatenates; each detail key of an analyzer bundle holds one fixed
list kind). -/
def breakdownShape (b : Bundle) (k : Str) : Prop :=
  lookupBundle b k = none ∨ ∃ l, lookupBundle b k = some (.breakdown l)

/-- Decidable check for `breakdownShape`. -/
def breakdownShapeOk (b : Bundle) (k : Str) : Bool :=
  match lookupBundle b k with
  | none => true
  | some (.breakdown _) => true
  | _ => false

/-- Merge-commutativity witness file A (two rows, categories A and B). -/
def dfFileA : DataFrame :=
  { cols := [⟨chars "categoria_general", true⟩,
             ⟨chars "categoria_especifica", true⟩],
    rows := [[some (chars "A"), some (chars "X")],
             [some (chars "B"), none]] }

/-- Merge-commutativity witness file B (one row, category A). -/
def dfFileB : DataFrame :=
  { cols := [⟨chars "categoria_general", true⟩,
             ⟨chars "categoria_especifica", true⟩],
    rows := [[some (chars "A"), some (chars "Y")]] }

/-- Merge-commutativity witness file with installer data (agents Ana and
Bob), so its bundle carries an `agente_instalador_detalle` entry. -/
def dfFileAI : DataFrame :=
  { cols := [⟨chars "categoria_general", true⟩,
             ⟨chars "categoria_especifica", true⟩,
             ⟨chars "agente_instalador", true⟩],
    rows := [[some (chars "A"), some (chars "X"), some (chars "Ana")],
             [some (chars "B"), some (chars "Y"), some (chars "Bob")]] }

/-- Second merge-commutativity witness file with installer data. -/
def dfFileBI : DataFrame :=
  { cols := [⟨chars "categoria_general", true⟩,
             ⟨chars "categoria_especifica", true⟩,
             ⟨chars "agente_instalador", true⟩],
    rows := [[some (chars "A"), some (chars "Z"), some (chars "Ana")]] }

/-- Route records for two agents plus one unassigned record. -/
def detailsC3 : List RouteRecord :=
  [⟨chars "Red", chars "Slow", [], chars "Red | Slow", chars "Ana"⟩,
   ⟨chars "Red", chars "Slow", [], chars "Red | Slow", chars "Ana"⟩,
   ⟨chars "Blue", chars "Fast", [], chars "Blue | Fast", chars "Ana"⟩,
   ⟨chars "Red", chars "Slow", [], chars "Red | Slow", chars "Bob"⟩,
   ⟨chars "Red", chars "Slow", [], chars "Red | Slow", sinAsignar⟩]

/-! ### Supporting lemmas -/

theorem Counter.cnt_addN (c : Counter) (k k' : Str) (n : Nat) :
    (c.addN k n).cnt k' = c.cnt k' + (if k' = k then n else 0) := by
  induction c with
  | nil =>
    by_cases h : k = k'
    · subst h; simp [Counter.addN, Counter.cnt]
    · simp [Counter.addN, Counter.cnt, h, Ne.symm h]
  | cons kv t ih =>
    obtain ⟨k0, n0⟩ := kv
    by_cases h0 : k0 = k
    · subst h0
      by_cases h1 : k0 = k'
      · subst h1; simp [Counter.addN, Counter.cnt]
      · simp [Counter.addN, Counter.cnt, h1, Ne.symm h1]
    · by_cases h1 : k0 = k'
      · subst h1
        simp [Counter.addN, Counter.cnt, h0, Ne.symm h0]
      · simp [Counter.addN, Counter.cnt, h0, h1, ih]

theorem Counter.cnt_inc (c : Counter) (k k' : Str) :
    (c.inc k).cnt k' = c.cnt k' + (if k' = k then 1 else 0) := by
  have h : c.inc k = c.addN k 1 := by
    induction c with
    | nil => rfl
    | cons kv t ih =>
      obtain ⟨k0, n0⟩ := kv
      by_cases h0 : k0 = k <;> simp [Counter.inc, Counter.addN, h0, ih]
  rw [h, Counter.cnt_addN]

theorem Counter.cnt_foldl_inc (l : List Str) (c : Counter) (k : Str) :
    (l.foldl Counter.inc c).cnt k = c.cnt k + l.count k := by
  induction l generalizing c with
  | nil => simp
  | cons a t ih =>
    rw [List.foldl_cons, ih, Counter.cnt_inc, List.count_cons]
    simp only [beq_iff_eq]
    by_cases h : k = a
    · subst h; simp; omega
    · simp [h, Ne.symm h]

theorem cnt_counterOfList (l : List Str) (k : Str) :
    (counterOfList l).cnt k = l.count k := by
  unfold counterOfList
  rw [Counter.cnt_foldl_inc]
  simp [Counter.cnt]

theorem Counter.total_addN (c : Counter) (k : Str) (n : Nat) :
    (c.addN k n).total = c.total + n := by
  induction c with
  | nil => simp [Counter.addN, Counter.total]
  | cons kv t ih =>
    obtain ⟨k0, n0⟩ := kv
    by_cases h0 : k0 = k
    · simp [Counter.addN, Counter.total, h0]; omega
    · simp only [Counter.addN, if_neg h0, Counter.total, List.map_cons, List.sum_cons] at *
      omega

theorem Counter.total_foldl_inc (l : List Str) (c : Counter) :
    (l.foldl Counter.inc c).total = c.total + l.length := by
  have hinc : ∀ (c : Counter) (k : Str), c.inc k = c.addN k 1 := by
    intro c k
    induction c with
    | nil => rfl
    | cons kv t ih =>
      obtain ⟨k0, n0⟩ := kv
      by_cases h0 : k0 = k <;> simp [Counter.inc, Counter.addN, h0, ih]
  induction l generalizing c with
  | nil => simp
  | cons a t ih =>
    rw [List.foldl_cons, ih, hinc, Counter.total_addN]
    simp; omega

theorem total_counterOfList (l : List Str) :
    (counterOfList l).total = l.length := by
  unfold counterOfList
  rw [Counter.total_foldl_inc]
  simp [Counter.total]

theorem Counter.cnt_update (a b : Counter) (k : Str) :
    (a.update b).cnt k = a.cnt k + b.weight k := by
  unfold Counter.update
  induction b generalizing a with
  | nil => simp [Counter.weight]
  | cons kv t ih =>
    obtain ⟨k0, n0⟩ := kv
    rw [List.foldl_cons, ih, Counter.cnt_addN]
    by_cases h : k0 = k
    · subst h
      simp [Counter.weight, List.filter_cons]
      omega
    · simp [Counter.weight, List.filter_cons, h, Ne.symm h]

example : pyStrip (chars "  a b  ") = chars "a b" := by decide

example : isSubstrOf (chars "cat") (chars "my cat here") = true := by decide

example : isSubstrOf (chars "cat") (chars "dog") = false := by decide

example :
    normalize_column_name (some (chars "Categoría Principal")) =
      chars "categoriaprincipal" := by decide

theorem PyDateTime.le_refl (a : PyDateTime) : a.le a = true := by
  simp [PyDateTime.le]

example :
    parse_datetime_value (some (chars "file_2025-01-02_03-04-05.xlsx")) =
      some ⟨2025, 1, 2, 3, 4, 5⟩ := by decide

example :
    parse_datetime_value (some (chars "2025-01-02 99:00:00")) =
      some ⟨2025, 1, 2, 0, 0, 0⟩ := by decide

example : parse_datetime_value (some (chars "hello")) = none := by decide

theorem findOccSep_shrinks :
    ∀ (s p r : Str), findOccSep s = some (p, r) → r.length < s.length := by
  intro s
  induction s with
  | nil => intro p r h; simp [findOccSep] at h
  | cons c t ih =>
    intro p r h
    by_cases hp : routeSep.isPrefixOf (c :: t)
    · simp only [findOccSep, if_pos hp] at h
      obtain ⟨h1, h2⟩ := Prod.mk.injEq .. ▸ Option.some.injEq .. ▸ h
      subst h2
      simp [List.length_drop]
      omega
    · simp only [findOccSep, if_neg hp] at h
      match hfo : findOccSep t with
      | none => rw [hfo] at h; simp at h
      | some (p', r') =>
        rw [hfo] at h
        simp at h
        obtain ⟨_, h2⟩ := h
        have := ih p' r' hfo
        subst h2
        simp
        omega

theorem pySplitSepGo_fuel (fuel fuel' : Nat) (s : Str)
    (h : s.length < fuel) (h' : s.length < fuel') :
    pySplitSepGo fuel s = pySplitSepGo fuel' s := by
  induction fuel generalizing fuel' s with
  | zero => omega
  | succ f ih =>
    match fuel', h' with
    | f' + 1, h' =>
      show (match findOccSep s with
        | none => [s]
        | some (p, rest) => p :: pySplitSepGo f rest) =
        (match findOccSep s with
        | none => [s]
        | some (p, rest) => p :: pySplitSepGo f' rest)
      match hf : findOccSep s with
      | none => rfl
      | some (p, rest) =>
        have hr := findOccSep_shrinks s p rest hf
        exact congrArg (p :: ·) (ih f' rest (by omega) (by omega))

theorem pySplitSep_of_none (s : Str) (h : findOccSep s = none) :
    pySplitSep s = [s] := by
  show pySplitSepGo (s.length + 1) s = [s]
  show (match findOccSep s with
    | none => [s]
    | some (p, rest) => p :: pySplitSepGo s.length rest) = [s]
  rw [h]

theorem pySplitSep_of_some (s p rest : Str) (h : findOccSep s = some (p, rest)) :
    pySplitSep s = p :: pySplitSep rest := by
  show pySplitSepGo (s.length + 1) s = p :: pySplitSepGo (rest.length + 1) rest
  have hr := findOccSep_shrinks s p rest h
  show (match findOccSep s with
    | none => [s]
    | some (p, rest) => p :: pySplitSepGo s.length rest) =
    p :: pySplitSepGo (rest.length + 1) rest
  rw [h]
  exact congrArg (p :: ·)
    (pySplitSepGo_fuel s.length (rest.length + 1) rest (by omega) (by omega))

example : pySplitSep (chars "a | b | c") = [chars "a", chars "b", chars "c"] := by
  decide

theorem perm_insertSorted (le : α → α → Bool) (a : α) (l : List α) :
    List.Perm (insertSorted le a l) (a :: l) := by
  induction l with
  | nil => simp [insertSorted]
  | cons b t ih =>
    by_cases h : le a b
    · simp [insertSorted, h]
    · simp only [insertSorted, if_neg h]
      exact List.Perm.trans (ih.cons b) (List.Perm.swap a b t)

theorem perm_isortBy (le : α → α → Bool) (l : List α) :
    List.Perm (isortBy le l) l := by
  induction l with
  | nil => simp [isortBy]
  | cons a t ih =>
    exact List.Perm.trans (perm_insertSorted le a (isortBy le t)) (ih.cons a)

theorem sepPrefix_iff (s : Str) :
    routeSep.isPrefixOf s = true ↔ ∃ t, s = ' ' :: '|' :: ' ' :: t := by
  match s with
  | [] => simp [routeSep, List.isPrefixOf]
  | [a] => simp [routeSep, List.isPrefixOf]
  | [a, b] => simp [routeSep, List.isPrefixOf]
  | a :: b :: c :: t =>
    simp only [routeSep, List.isPrefixOf, Bool.and_eq_true, beq_iff_eq,
      List.cons.injEq]
    constructor
    · rintro ⟨h1, h2, h3, -⟩
      exact ⟨t, h1.symm, h2.symm, h3.symm, rfl⟩
    · rintro ⟨u, h1, h2, h3, h4⟩
      exact ⟨h1.symm, h2.symm, h3.symm, trivial⟩

theorem findOccSep_cons (c : Char) (t : Str) :
    findOccSep (c :: t) =
      if routeSep.isPrefixOf (c :: t) then some ([], (c :: t).drop 3)
      else (findOccSep t).map (fun pr => (c :: pr.1, pr.2)) := rfl

theorem findOccSep_append (p r : Str) (hc : findOccSep p = none)
    (hs : (([' ', '|'] : Str).isSuffixOf p) = false) :
    findOccSep (p ++ routeSep ++ r) = some (p, r) := by
  induction p with
  | nil =>
    have hp : routeSep.isPrefixOf (' ' :: '|' :: ' ' :: r) = true :=
      (sepPrefix_iff _).mpr ⟨r, rfl⟩
    show findOccSep (' ' :: '|' :: ' ' :: r) = some ([], r)
    rw [findOccSep_cons, if_pos hp]
    rfl
  | cons c p' ih =>
    have hpre : routeSep.isPrefixOf (c :: p') = false := by
      cases h : routeSep.isPrefixOf (c :: p') with
      | false => rfl
      | true =>
        rw [findOccSep_cons, if_pos h] at hc
        exact absurd hc (by simp)
    have hp' : findOccSep p' = none := by
      rw [findOccSep_cons, if_neg (by simp [hpre])] at hc
      exact Option.map_eq_none'.mp hc
    have hs' : (([' ', '|'] : Str).isSuffixOf p') = false := by
      cases h : (([' ', '|'] : Str).isSuffixOf p') with
      | false => rfl
      | true =>
        have h2 : (([' ', '|'] : Str).isSuffixOf (c :: p')) = true := by
          rw [List.isSuffixOf_iff_suffix] at h ⊢
          exact h.trans (List.suffix_cons c p')
        rw [h2] at hs
        exact absurd hs (by decide)
    have hgoal : (c :: p') ++ routeSep ++ r = c :: (p' ++ routeSep ++ r) := by simp
    rw [hgoal, findOccSep_cons]
    have hpre2 : routeSep.isPrefixOf (c :: (p' ++ routeSep ++ r)) = false := by
      cases h : routeSep.isPrefixOf (c :: (p' ++ routeSep ++ r)) with
      | false => rfl
      | true =>
        obtain ⟨u, hu⟩ := (sepPrefix_iff _).mp h
        match p', hu with
        | [], hu =>
          injection hu with e1 hu
          injection hu with e2 hu
          exact absurd e2 (by decide)
        | [x], hu =>
          injection hu with e1 hu
          injection hu with e2 hu
          subst e1; subst e2
          rw [show (([' ', '|'] : Str).isSuffixOf [' ', '|']) = true from by decide]
            at hs
          exact absurd hs (by decide)
        | x :: y :: ptail, hu =>
          injection hu with e1 hu
          injection hu with e2 hu
          injection hu with e3 hu
          subst e1; subst e2; subst e3
          rw [(sepPrefix_iff _).mpr ⟨ptail, rfl⟩] at hpre
          exact absurd hpre (by decide)
    rw [if_neg (by simp only [hpre2]; decide), ih hp' hs']
    rfl

theorem pySplitSep_pyJoinSep (parts : List Str) (hne : parts ≠ [])
    (hnosep : ∀ p ∈ parts, findOccSep p = none)
    (hsuf : ∀ p ∈ parts, (([' ', '|'] : Str).isSuffixOf p) = false) :
    pySplitSep (pyJoinSep parts) = parts := by
  induction parts with
  | nil => exact absurd rfl hne
  | cons p ps ih =>
    cases ps with
    | nil =>
      rw [show pyJoinSep [p] = p from rfl]
      rw [pySplitSep_of_none p (hnosep p (by simp))]
    | cons q t =>
      have hj : pyJoinSep (p :: q :: t) = p ++ routeSep ++ pyJoinSep (q :: t) := rfl
      rw [hj, pySplitSep_of_some _ p (pyJoinSep (q :: t))
        (findOccSep_append p (pyJoinSep (q :: t)) (hnosep p (by simp))
          (hsuf p (by simp)))]
      rw [ih (by simp) (fun x hx => hnosep x (by simp [hx]))
        (fun x hx => hsuf x (by simp [hx]))]

theorem analyze_combined_details_eq (df : DataFrame) (gname : Str)
    (hg : (classifyCombinedCols df.cols).1 = some gname) :
    (analyze_combined_categories df).2 =
      df.rows.filterMap (rowRecordOf df gname (classifyCombinedCols df.cols).2.1
        (classifyCombinedCols df.cols).2.2 (identify_installer_column df)) := by
  unfold analyze_combined_categories
  simp only [hg]

/-- C2 (amended): every Combined Route Record emitted by
`analyze_combined_categories` is built from a parts list with at least
two entries (a record is emitted only when some part beyond the general
category is present), its `full_route` is the `" | "` join of those
parts, and splitting the route on `" | "` recovers the parts in order
provided no part contains `" | "` and no part ends in `" |"`. -/
theorem combined_route_roundtrip (df : DataFrame) (rec : RouteRecord)
    (hrec : rec ∈ (analyze_combined_categories df).2) :
    ∃ parts inst, 2 ≤ parts.length ∧ rec = recordOfParts parts inst ∧
      ((∀ p ∈ parts, findOccSep p = none ∧
          (([' ', '|'] : Str).isSuffixOf p) = false) →
        pySplitSep rec.ruta_completa = parts) := by
  cases hg : (classifyCombinedCols df.cols).1 with
  | none =>
    unfold analyze_combined_categories at hrec
    simp only [hg] at hrec
    simp at hrec
  | some gname =>
    rw [analyze_combined_details_eq df gname hg] at hrec
    simp only [List.mem_filterMap] at hrec
    obtain ⟨row, hrow, hsome⟩ := hrec
    unfold rowRecordOf at hsome
    cases hp : combinedPartsOfRow df gname (classifyCombinedCols df.cols).2.1
        (classifyCombinedCols df.cols).2.2 row with
    | none => rw [hp] at hsome; cases hsome
    | some parts =>
      rw [hp] at hsome
      have hsome2 : (if 1 < parts.length then
          some (recordOfParts parts
            (installerValueFor df (identify_installer_column df) row))
          else none) = some rec := hsome
      by_cases hlen : 1 < parts.length
      · rw [if_pos hlen] at hsome2
        injection hsome2 with hrec2
        refine ⟨parts, installerValueFor df (identify_installer_column df) row,
          by omega, hrec2.symm, ?_⟩
        intro hcond
        have hruta : rec.ruta_completa = pyJoinSep parts := by
          rw [← hrec2]
          rfl
        rw [hruta]
        exact pySplitSep_pyJoinSep parts (by intro h; subst h; simp at hlen)
          (fun p hp2 => (hcond p hp2).1) (fun p hp2 => (hcond p hp2).2)
      · rw [if_neg hlen] at hsome2; cases hsome2

/-- Witness for C2: the record from a `Red`/`Slow` row. -/
theorem combined_route_roundtrip_witness :
    recordOfParts [chars "Red", chars "Slow"] sinAsignar ∈
      (analyze_combined_categories dfRouteWitness).2 ∧
    ∃ parts inst, 2 ≤ parts.length ∧
      recordOfParts [chars "Red", chars "Slow"] sinAsignar =
        recordOfParts parts inst ∧
      ((∀ p ∈ parts, findOccSep p = none ∧
          (([' ', '|'] : Str).isSuffixOf p) = false) →
        pySplitSep (recordOfParts [chars "Red", chars "Slow"]
          sinAsignar).ruta_completa = parts) :=
  ⟨by decide, combined_route_roundtrip dfRouteWitness _ (by decide)⟩

/-- Counterexample to C2 as stated: when the general-category cell is
`"A | B"`, the emitted record's route splits into three fragments, not
into the two parts it was built from. -/
theorem combined_route_roundtrip_counterexample :
    (analyze_combined_categories dfRouteCex).2 =
      [recordOfParts [chars "A | B", chars "C"] sinAsignar] ∧
    pySplitSep (recordOfParts [chars "A | B", chars "C"]
        sinAsignar).ruta_completa ≠ [chars "A | B", chars "C"] := by
  decide

/-- C10: when every specific-category column is null in a row but some
subtype column is not, the emitted record carries the subtype value in
its `categoria_especifica` field and `''` in `subtipo` — fields are
assigned positionally from the parts list. -/
theorem subtype_fills_especifica (df : DataFrame) (gname : Str)
    (es ss : List Str) (row : List Cell) (g v : Str)
    (hcl : classifyCombinedCols df.cols = (some gname, es, ss))
    (hrow : row ∈ df.rows)
    (hg : cellAt row (colIndex df gname) = some g)
    (hesp : firstNonNullIn df es row = none)
    (hsub : firstNonNullIn df ss row = some v) :
    ∃ rec, rowRecordOf df gname es ss (identify_installer_column df) row =
        some rec ∧
      rec.categoria_especifica = pyStrip v ∧ rec.subtipo = [] ∧
      rec ∈ (analyze_combined_categories df).2 := by
  have hparts : combinedPartsOfRow df gname es ss row =
      some [pyStrip g, pyStrip v] := by
    unfold combinedPartsOfRow
    rw [hg, hesp, hsub]
    rfl
  refine ⟨recordOfParts [pyStrip g, pyStrip v]
    (installerValueFor df (identify_installer_column df) row), ?_, rfl, rfl, ?_⟩
  · unfold rowRecordOf
    rw [hparts]
    rfl
  · rw [analyze_combined_details_eq df gname (by rw [hcl])]
    rw [show (classifyCombinedCols df.cols).2.1 = es from by rw [hcl]]
    rw [show (classifyCombinedCols df.cols).2.2 = ss from by rw [hcl]]
    refine List.mem_filterMap.mpr ⟨row, hrow, ?_⟩
    unfold rowRecordOf
    rw [hparts]
    rfl

/-- Witness for C10 on a concrete three-column file. -/
theorem subtype_fills_especifica_witness :
    ∃ rec, rowRecordOf dfSubtypeWitness (chars "categoria_general")
        [chars "categoria_especifica"] [chars "subtipo_categoria"]
        (identify_installer_column dfSubtypeWitness)
        [some (chars "Red"), none, some (chars "Hot")] = some rec ∧
      rec.categoria_especifica = pyStrip (chars "Hot") ∧ rec.subtipo = [] ∧
      rec ∈ (analyze_combined_categories dfSubtypeWitness).2 :=
  subtype_fills_especifica dfSubtypeWitness (chars "categoria_general")
    [chars "categoria_especifica"] [chars "subtipo_categoria"]
    [some (chars "Red"), none, some (chars "Hot")] (chars "Red") (chars "Hot")
    (by decide) (by decide) (by decide) (by decide) (by decide)

/-- C1: in the general-category frequency map of `analyze_excel_file`,
each key counts exactly the post-filter rows whose whole trimmed cell
equals that key — a comma-separated cell such as `"Billing, Support"`
is one literal key, never split — and the counter's total equals the
number of non-null category cells (one increment per non-null row). -/
theorem general_counts_literal (cfg : Config) (df : DataFrame) (cname k : Str)
    (h0 : df.rows ≠ [])
    (h1 : (filter_by_date_range cfg df).rows ≠ [])
    (h2 : identify_category_column (filter_by_date_range cfg df) = some cname)
    (h3 : nonNullCells (filter_by_date_range cfg df) cname ≠ []) :
    (analyze_excel_file cfg (.ok df)).1.cnt k =
      ((nonNullCells (filter_by_date_range cfg df) cname).map pyStrip).count k ∧
    (analyze_excel_file cfg (.ok df)).1.total =
      (nonNullCells (filter_by_date_range cfg df) cname).length := by
  have hok : analyze_excel_file cfg (.ok df) = analyze_excel_df cfg df := rfl
  have hres : analyze_excel_df cfg df =
      (counterOfList ((nonNullCells (filter_by_date_range cfg df) cname).map pyStrip),
        (filter_by_date_range cfg df).rows.length,
        analyze_detailed_categories (filter_by_date_range cfg df)) := by
    unfold analyze_excel_df
    rw [if_neg (by simp [h0]), if_neg (by simp [h1])]
    simp only [h2]
    rw [if_neg (by simp [h3])]
  rw [hok, hres]
  constructor
  · exact cnt_counterOfList _ k
  · rw [show (counterOfList ((nonNullCells (filter_by_date_range cfg df) cname).map pyStrip),
        (filter_by_date_range cfg df).rows.length,
        analyze_detailed_categories (filter_by_date_range cfg df)).1 =
        counterOfList ((nonNullCells (filter_by_date_range cfg df) cname).map pyStrip) from rfl]
    rw [total_counterOfList, List.length_map]

/-- Witness for C1: the cell `"Billing, Support"` counts once under its
literal key and not under the fragments `"Billing"` / `"Support"`. -/
theorem general_counts_literal_witness :
    (analyze_excel_file noFilter (.ok dfBilling)).1.cnt (chars "Billing, Support") = 1 ∧
    (analyze_excel_file noFilter (.ok dfBilling)).1.cnt (chars "Billing") = 1 ∧
    (analyze_excel_file noFilter (.ok dfBilling)).1.cnt (chars "Support") = 0 ∧
    (analyze_excel_file noFilter (.ok dfBilling)).1.total = 2 := by
  have h := general_counts_literal noFilter dfBilling (chars "categoria_general")
    (chars "Billing, Support") (by decide) (by decide) (by decide) (by decide)
  have h2 := general_counts_literal noFilter dfBilling (chars "categoria_general")
    (chars "Billing") (by decide) (by decide) (by decide) (by decide)
  have h3 := general_counts_literal noFilter dfBilling (chars "categoria_general")
    (chars "Support") (by decide) (by decide) (by decide) (by decide)
  refine ⟨?_, ?_, ?_, ?_⟩
  · rw [h.1]; decide
  · rw [h2.1]; decide
  · rw [h3.1]; decide
  · rw [h.2]; decide

/-- C7: when `identify_category_column` finds no match at all,
`analyze_excel_file` returns an empty frequency map, an empty bundle,
and the file's full row count. -/
theorem categoryless_file_keeps_rowcount (cfg : Config) (df : DataFrame)
    (hs : cfg.start_date = none) (he : cfg.end_date = none)
    (h0 : df.rows ≠ [])
    (h2 : identify_category_column df = none) :
    analyze_excel_file cfg (.ok df) = ([], df.rows.length, []) := by
  have hf : filter_by_date_range cfg df = df := by
    unfold filter_by_date_range
    rw [if_pos (by simp [hs, he])]
  have hok : analyze_excel_file cfg (.ok df) = analyze_excel_df cfg df := rfl
  rw [hok]
  unfold analyze_excel_df
  rw [hf, if_neg (by simp [h0]), if_neg (by simp [h0])]
  simp only [h2]

/-- Witness for C7: a 100-row file with an unresolvable category column
yields an empty map and row count 100. -/
theorem categoryless_file_keeps_rowcount_witness :
    analyze_excel_file noFilter (.ok df100) = ([], 100, []) := by
  rw [categoryless_file_keeps_rowcount noFilter df100 rfl rfl (by decide) (by decide)]
  rfl

/-- C8: `parse_datetime_value` is total (never raises in the model):
null is NaT, otherwise the datetime-regex layer is consulted first,
then the date-only-regex layer, then the lenient coercion; when all
three fail the result is NaT. -/
theorem parse_datetime_layering :
    parse_datetime_value none = none ∧
    (∀ s d, tryDateTimeLayer s = some d → parse_datetime_value (some s) = some d) ∧
    (∀ s d, tryDateTimeLayer s = none → tryDateOnlyLayer s = some d →
      parse_datetime_value (some s) = some d) ∧
    (∀ s, tryDateTimeLayer s = none → tryDateOnlyLayer s = none →
      parse_datetime_value (some s) = pd_to_datetime_coerce s) := by
  have hbody : ∀ s, parse_datetime_value (some s) =
      (match tryDateTimeLayer s with
        | some dt => some dt
        | none =>
          match tryDateOnlyLayer s with
          | some dt => some dt
          | none => pd_to_datetime_coerce s) := fun s => rfl
  refine ⟨rfl, ?_, ?_, ?_⟩
  · intro s d h
    rw [hbody, h]
  · intro s d h1 h2
    rw [hbody, h1, h2]
  · intro s h1 h2
    rw [hbody, h1, h2]

/-- Witness for C8: `"hello"` fails all three layers and yields NaT. -/
theorem parse_datetime_layering_witness :
    parse_datetime_value none = none ∧
    parse_datetime_value (some (chars "hello")) = none := by
  refine ⟨parse_datetime_layering.1, ?_⟩
  have h := parse_datetime_layering.2.2.2 (chars "hello") (by decide) (by decide)
  rw [h]
  decide

theorem filter_eq_of_no_column (cfg : Config) (df : DataFrame)
    (h : identify_date_column df = none) :
    filter_by_date_range cfg df = df := by
  unfold filter_by_date_range
  by_cases hb : (cfg.start_date.isNone && cfg.end_date.isNone) = true
  · rw [if_pos hb]
  · rw [if_neg hb, h]

theorem filter_rows_eq (cfg : Config) (df : DataFrame) (c : Str)
    (hb : (cfg.start_date.isNone && cfg.end_date.isNone) = false)
    (hc : identify_date_column df = some c) :
    (filter_by_date_range cfg df).rows =
      df.rows.filter (fun r =>
        dateInRange cfg (parse_datetime_value (cellAt r (colIndex df c)))) := by
  unfold filter_by_date_range
  rw [if_neg (by simp [hb]), hc]

theorem dateInRange_of_start (cfg : Config) (s : PyDateTime)
    (hs : cfg.start_date = some s)
    (he : ∀ e, cfg.end_date = some e → s.le e = true) :
    dateInRange cfg (some s) = true := by
  unfold dateInRange
  rw [hs]
  cases hcfg : cfg.end_date with
  | none => simp [PyDateTime.le_refl]
  | some e => simp [PyDateTime.le_refl, he e hcfg]

theorem dateInRange_of_end (cfg : Config) (e : PyDateTime)
    (he : cfg.end_date = some e)
    (hs : ∀ s, cfg.start_date = some s → s.le e = true) :
    dateInRange cfg (some e) = true := by
  unfold dateInRange
  rw [he]
  cases hcfg : cfg.start_date with
  | none => simp [PyDateTime.le_refl]
  | some s => simp [PyDateTime.le_refl, hs s hcfg]

theorem dateInRange_none_false (cfg : Config)
    (hb : cfg.start_date ≠ none ∨ cfg.end_date ≠ none) :
    dateInRange cfg none = false := by
  unfold dateInRange
  cases hcs : cfg.start_date with
  | some s => simp
  | none =>
    cases hce : cfg.end_date with
    | some e => simp
    | none =>
      rcases hb with h | h
      · exact absurd hcs h
      · exact absurd hce h

/-- C4: the date filter keeps a row whose parsed date equals the start
bound and one equal to the end bound (inclusive on both ends), drops
any row parsing to NaT whenever at least one bound is active, and is
the identity when no date column is identified. -/
theorem date_filter_bounds (cfg : Config) (df : DataFrame) (c : Str)
    (r : List Cell) :
    (identify_date_column df = none → filter_by_date_range cfg df = df) ∧
    (∀ s, cfg.start_date = some s →
      identify_date_column df = some c → r ∈ df.rows →
      parse_datetime_value (cellAt r (colIndex df c)) = some s →
      (∀ e, cfg.end_date = some e → s.le e = true) →
      r ∈ (filter_by_date_range cfg df).rows) ∧
    (∀ e, cfg.end_date = some e →
      identify_date_column df = some c → r ∈ df.rows →
      parse_datetime_value (cellAt r (colIndex df c)) = some e →
      (∀ s, cfg.start_date = some s → s.le e = true) →
      r ∈ (filter_by_date_range cfg df).rows) ∧
    ((cfg.start_date ≠ none ∨ cfg.end_date ≠ none) →
      identify_date_column df = some c →
      parse_datetime_value (cellAt r (colIndex df c)) = none →
      r ∉ (filter_by_date_range cfg df).rows) := by
  refine ⟨filter_eq_of_no_column cfg df, ?_, ?_, ?_⟩
  · intro s hs hc hrow hparse hend
    have hb : (cfg.start_date.isNone && cfg.end_date.isNone) = false := by
      rw [hs]; rfl
    rw [filter_rows_eq cfg df c hb hc]
    refine List.mem_filter.mpr ⟨hrow, ?_⟩
    rw [hparse]
    exact dateInRange_of_start cfg s hs hend
  · intro e he hc hrow hparse hstart
    have hb : (cfg.start_date.isNone && cfg.end_date.isNone) = false := by
      rw [he]; simp
    rw [filter_rows_eq cfg df c hb hc]
    refine List.mem_filter.mpr ⟨hrow, ?_⟩
    rw [hparse]
    exact dateInRange_of_end cfg e he hstart
  · intro hbound hc hparse hmem
    have hb : (cfg.start_date.isNone && cfg.end_date.isNone) = false := by
      rcases hbound with h | h
      · cases hcs : cfg.start_date with
        | none => exact absurd hcs h
        | some s => rfl
      · cases hce : cfg.end_date with
        | none => exact absurd hce h
        | some e => simp
    rw [filter_rows_eq cfg df c hb hc] at hmem
    have := (List.mem_filter.mp hmem).2
    rw [hparse, dateInRange_none_false cfg hbound] at this
    cases this

/-- Witness for C4 on a January 2025 window: both boundary rows kept,
the garbage row dropped. -/
theorem date_filter_bounds_witness :
    [some (chars "2025-01-01"), some (chars "A")] ∈
      (filter_by_date_range cfgJan dfDates).rows ∧
    [some (chars "2025-01-31"), some (chars "B")] ∈
      (filter_by_date_range cfgJan dfDates).rows ∧
    [some (chars "garbage"), some (chars "C")] ∉
      (filter_by_date_range cfgJan dfDates).rows := by
  refine ⟨?_, ?_, ?_⟩
  · exact (date_filter_bounds cfgJan dfDates (chars "fecha") _).2.1
      ⟨2025, 1, 1, 0, 0, 0⟩ rfl (by decide) (by decide) (by decide)
      (fun e he => by
        rw [show cfgJan.end_date = some ⟨2025, 1, 31, 0, 0, 0⟩ from rfl] at he
        injection he with h
        rw [← h]
        decide)
  · exact (date_filter_bounds cfgJan dfDates (chars "fecha") _).2.2.1
      ⟨2025, 1, 31, 0, 0, 0⟩ rfl (by decide) (by decide) (by decide)
      (fun s hs => by
        rw [show cfgJan.start_date = some ⟨2025, 1, 1, 0, 0, 0⟩ from rfl] at hs
        injection hs with h
        rw [← h]
        decide)
  · exact (date_filter_bounds cfgJan dfDates (chars "fecha") _).2.2.2
      (Or.inl (by decide)) (by decide) (by decide)

/-- C6: an error raised while processing one file yields the empty
triple for that file, and `analyze_multiple_files` over any file list
containing the failing file equals the analysis of the list without it
— the merge state is unaffected. -/
theorem failed_file_isolated (cfg : Config) (e : Str) (fs1 fs2 : List ExcelInput) :
    analyze_excel_file cfg (.error e) = ([], 0, []) ∧
    analyze_multiple_files cfg (fs1 ++ .error e :: fs2) =
      analyze_multiple_files cfg (fs1 ++ fs2) := by
  constructor
  · rfl
  · unfold analyze_multiple_files
    rw [List.foldl_append, List.foldl_append, List.foldl_cons]
    have h : ∀ acc : AnalysisTriple,
        mergeTriple acc (analyze_excel_file cfg (.error e)) = acc := fun acc => rfl
    rw [h]

/-- C9 (code bug): `generate_report` raises `AttributeError` — modelled
as `.error` — as soon as the detailed loop reaches a bundle entry whose
value is a non-empty list (`categoria_combinada_detalle` or
`agente_instalador_detalle`), instead of producing a report string. -/
theorem generate_report_raises_on_detail_lists :
    generate_report [(chars "A", 1)] 1 1 bundleRoutesCrash =
      .error mostCommonAttrError ∧
    generate_report [(chars "A", 1)] 1 1 bundleBreakdownCrash =
      .error mostCommonAttrError := ⟨rfl, rfl⟩

theorem lookupBundle_cons_ne (e : Str × BundleVal) (t : Bundle) (k : Str)
    (h : e.1 ≠ k) : lookupBundle (e :: t) k = lookupBundle t k := by
  simp [lookupBundle, List.find?, h]

theorem lookupBundle_cons_eq (e : Str × BundleVal) (t : Bundle) (k : Str)
    (h : e.1 = k) : lookupBundle (e :: t) k = some e.2 := by
  simp [lookupBundle, List.find?, h]

theorem setBundle_nil (k : Str) (v : BundleVal) :
    setBundle [] k v = [(k, v)] := rfl

theorem setBundle_cons_eq (k0 : Str) (v0 : BundleVal) (t : Bundle)
    (k : Str) (v : BundleVal) (h : k0 = k) :
    setBundle ((k0, v0) :: t) k v = (k, v) :: t := by
  simp [setBundle, h]

theorem setBundle_cons_ne (k0 : Str) (v0 : BundleVal) (t : Bundle)
    (k : Str) (v : BundleVal) (h : k0 ≠ k) :
    setBundle ((k0, v0) :: t) k v = (k0, v0) :: setBundle t k v := by
  simp [setBundle, h]

theorem lookupBundle_setBundle_eq (b : Bundle) (k : Str) (v : BundleVal) :
    lookupBundle (setBundle b k v) k = some v := by
  induction b with
  | nil =>
    rw [setBundle_nil]
    exact lookupBundle_cons_eq (k, v) [] k rfl
  | cons e t ih =>
    obtain ⟨k0, v0⟩ := e
    by_cases h : k0 = k
    · rw [setBundle_cons_eq k0 v0 t k v h]
      exact lookupBundle_cons_eq (k, v) t k rfl
    · rw [setBundle_cons_ne k0 v0 t k v h, lookupBundle_cons_ne (k0, v0) _ k h]
      exact ih

theorem lookupBundle_setBundle_ne (b : Bundle) (k k' : Str) (v : BundleVal)
    (h : k' ≠ k) :
    lookupBundle (setBundle b k v) k' = lookupBundle b k' := by
  induction b with
  | nil =>
    rw [setBundle_nil, lookupBundle_cons_ne (k, v) [] k' (Ne.symm h)]
  | cons e t ih =>
    obtain ⟨k0, v0⟩ := e
    by_cases h0 : k0 = k
    · rw [setBundle_cons_eq k0 v0 t k v h0,
        lookupBundle_cons_ne (k, v) t k' (Ne.symm h)]
      subst h0
      rw [lookupBundle_cons_ne (k0, v0) t k' (Ne.symm h)]
    · rw [setBundle_cons_ne k0 v0 t k v h0]
      by_cases h1 : k0 = k'
      · rw [lookupBundle_cons_eq (k0, v0) _ k' h1,
          lookupBundle_cons_eq (k0, v0) t k' h1]
      · rw [lookupBundle_cons_ne (k0, v0) _ k' h1,
          lookupBundle_cons_ne (k0, v0) t k' h1]
        exact ih

theorem mergeBundle_lookup_not_mem (file : Bundle) (acc : Bundle) (k : Str)
    (h : ∀ e ∈ file, e.1 ≠ k) :
    lookupBundle (mergeBundle acc file) k = lookupBundle acc k := by
  induction file generalizing acc with
  | nil => rfl
  | cons e t ih =>
    have hstep : mergeBundle acc (e :: t) =
        mergeBundle (mergeBundleEntry acc e.1 e.2) t := rfl
    rw [hstep, ih _ (fun e' he' => h e' (List.mem_cons_of_mem e he'))]
    exact lookupBundle_setBundle_ne acc e.1 k _
      (fun hh => h e (by simp) hh.symm)

theorem mergeBundle_routesAt (file : Bundle) (acc : Bundle) (k : Str)
    (hacc : routesShape acc k) (hfile : routesShape file k)
    (hcount : (file.map Prod.fst).count k ≤ 1) :
    routesAt (mergeBundle acc file) k = routesAt acc k ++ routesAt file k ∧
    routesShape (mergeBundle acc file) k := by
  induction file generalizing acc with
  | nil =>
    refine ⟨?_, hacc⟩
    show routesAt acc k = routesAt acc k ++ routesAt [] k
    rw [show routesAt ([] : Bundle) k = [] from rfl, List.append_nil]
  | cons e t ih =>
    have hstep : mergeBundle acc (e :: t) =
        mergeBundle (mergeBundleEntry acc e.1 e.2) t := rfl
    by_cases hk : e.1 = k
    · have ht : ∀ e' ∈ t, e'.1 ≠ k := by
        intro e' he' heq
        have h1 : ((e :: t).map Prod.fst).count k =
            (t.map Prod.fst).count k + 1 := by
          simp [List.count_cons, hk]
        have h2 : 1 ≤ (t.map Prod.fst).count k :=
          List.one_le_count_iff.mpr (by
            exact List.mem_map.mpr ⟨e', he', heq⟩)
        omega
      have hlook : lookupBundle (e :: t) k = some e.2 :=
        lookupBundle_cons_eq e t k hk
      rcases hfile with hnone | ⟨l, hsome⟩
      · rw [hlook] at hnone; cases hnone
      · rw [hlook] at hsome
        injection hsome with hv
        have hlac : lookupBundle (mergeBundleEntry acc e.1 e.2) k =
            some (.routes (routesAt acc k ++ l)) := by
          unfold mergeBundleEntry
          rw [hk, hv]
          rcases hacc with ha | ⟨l0, ha⟩
          · rw [ha]
            rw [lookupBundle_setBundle_eq]
            unfold routesAt
            rw [ha]
            rfl
          · rw [ha]
            rw [lookupBundle_setBundle_eq]
            unfold routesAt
            rw [ha]
            rfl
        have hpres := mergeBundle_lookup_not_mem t (mergeBundleEntry acc e.1 e.2) k ht
        rw [hstep]
        constructor
        · unfold routesAt
          rw [hpres, hlac, hlook, hv]
          rfl
        · right
          exact ⟨routesAt acc k ++ l, by rw [hpres, hlac]⟩
    · have hfile' : routesShape t k := by
        have heq := lookupBundle_cons_ne e t k hk
        rcases hfile with h | ⟨l, h⟩
        · left; rw [← heq]; exact h
        · right; exact ⟨l, by rw [← heq]; exact h⟩
      have hcount' : (t.map Prod.fst).count k ≤ 1 := by
        have : ((e :: t).map Prod.fst).count k = (t.map Prod.fst).count k := by
          simp [List.count_cons, hk]
        omega
      have hlent : lookupBundle (mergeBundleEntry acc e.1 e.2) k =
          lookupBundle acc k :=
        lookupBundle_setBundle_ne acc e.1 k _ (fun hh => hk hh.symm)
      have hacc' : routesShape (mergeBundleEntry acc e.1 e.2) k := by
        rcases hacc with h | ⟨l, h⟩
        · left; rw [hlent]; exact h
        · right; exact ⟨l, by rw [hlent]; exact h⟩
      obtain ⟨hih1, hih2⟩ := ih (mergeBundleEntry acc e.1 e.2) hacc' hfile' hcount'
      rw [hstep]
      refine ⟨?_, hih2⟩
      rw [hih1]
      have h1 : routesAt (mergeBundleEntry acc e.1 e.2) k = routesAt acc k := by
        unfold routesAt
        rw [hlent]
      have h2 : routesAt (e :: t) k = routesAt t k := by
        unfold routesAt
        rw [lookupBundle_cons_ne e t k hk]
      rw [h1, h2]

theorem routesShape_of_ok (b : Bundle) (k : Str)
    (h : routesShapeOk b k = true) : routesShape b k := by
  unfold routesShapeOk at h
  cases hl : lookupBundle b k with
  | none => exact Or.inl hl
  | some v =>
    cases v with
    | routes l => exact Or.inr ⟨l, hl⟩
    | counter c => rw [hl] at h; exact Bool.noConfusion h
    | breakdown l => rw [hl] at h; exact Bool.noConfusion h

theorem breakdownShape_of_ok (b : Bundle) (k : Str)
    (h : breakdownShapeOk b k = true) : breakdownShape b k := by
  unfold breakdownShapeOk at h
  cases hl : lookupBundle b k with
  | none => exact Or.inl hl
  | some v =>
    cases v with
    | breakdown l => exact Or.inr ⟨l, hl⟩
    | counter c => rw [hl] at h; exact Bool.noConfusion h
    | routes l => rw [hl] at h; exact Bool.noConfusion h

theorem mergeBundle_breakdownAt (file : Bundle) (acc : Bundle) (k : Str)
    (hacc : breakdownShape acc k) (hfile : breakdownShape file k)
    (hcount : (file.map Prod.fst).count k ≤ 1) :
    breakdownAt (mergeBundle acc file) k =
      breakdownAt acc k ++ breakdownAt file k ∧
    breakdownShape (mergeBundle acc file) k := by
  induction file generalizing acc with
  | nil =>
    refine ⟨?_, hacc⟩
    show breakdownAt acc k = breakdownAt acc k ++ breakdownAt [] k
    rw [show breakdownAt ([] : Bundle) k = [] from rfl, List.append_nil]
  | cons e t ih =>
    have hstep : mergeBundle acc (e :: t) =
        mergeBundle (mergeBundleEntry acc e.1 e.2) t := rfl
    by_cases hk : e.1 = k
    · have ht : ∀ e' ∈ t, e'.1 ≠ k := by
        intro e' he' heq
        have h1 : ((e :: t).map Prod.fst).count k =
            (t.map Prod.fst).count k + 1 := by
          simp [List.count_cons, hk]
        have h2 : 1 ≤ (t.map Prod.fst).count k :=
          List.one_le_count_iff.mpr (by
            exact List.mem_map.mpr ⟨e', he', heq⟩)
        omega
      have hlook : lookupBundle (e :: t) k = some e.2 :=
        lookupBundle_cons_eq e t k hk
      rcases hfile with hnone | ⟨l, hsome⟩
      · rw [hlook] at hnone; cases hnone
      · rw [hlook] at hsome
        injection hsome with hv
        have hlac : lookupBundle (mergeBundleEntry acc e.1 e.2) k =
            some (.breakdown (breakdownAt acc k ++ l)) := by
          unfold mergeBundleEntry
          rw [hk, hv]
          rcases hacc with ha | ⟨l0, ha⟩
          · rw [ha]
            rw [lookupBundle_setBundle_eq]
            unfold breakdownAt
            rw [ha]
            rfl
          · rw [ha]
            rw [lookupBundle_setBundle_eq]
            unfold breakdownAt
            rw [ha]
            rfl
        have hpres := mergeBundle_lookup_not_mem t
          (mergeBundleEntry acc e.1 e.2) k ht
        rw [hstep]
        constructor
        · unfold breakdownAt
          rw [hpres, hlac, hlook, hv]
          rfl
        · right
          exact ⟨breakdownAt acc k ++ l, by rw [hpres, hlac]⟩
    · have hfile' : breakdownShape t k := by
        have heq := lookupBundle_cons_ne e t k hk
        rcases hfile with h | ⟨l, h⟩
        · left; rw [← heq]; exact h
        · right; exact ⟨l, by rw [← heq]; exact h⟩
      have hcount' : (t.map Prod.fst).count k ≤ 1 := by
        have : ((e :: t).map Prod.fst).count k = (t.map Prod.fst).count k := by
          simp [List.count_cons, hk]
        omega
      have hlent : lookupBundle (mergeBundleEntry acc e.1 e.2) k =
          lookupBundle acc k :=
        lookupBundle_setBundle_ne acc e.1 k _ (fun hh => hk hh.symm)
      have hacc' : breakdownShape (mergeBundleEntry acc e.1 e.2) k := by
        rcases hacc with h | ⟨l, h⟩
        · left; rw [hlent]; exact h
        · right; exact ⟨l, by rw [hlent]; exact h⟩
      obtain ⟨hih1, hih2⟩ := ih (mergeBundleEntry acc e.1 e.2) hacc' hfile' hcount'
      rw [hstep]
      refine ⟨?_, hih2⟩
      rw [hih1]
      have h1 : breakdownAt (mergeBundleEntry acc e.1 e.2) k =
          breakdownAt acc k := by
        unfold breakdownAt
        rw [hlent]
      have h2 : breakdownAt (e :: t) k = breakdownAt t k := by
        unfold breakdownAt
        rw [lookupBundle_cons_ne e t k hk]
      rw [h1, h2]

/-- C5: `analyze_multiple_files` on `[A, B]` and `[B, A]` produces
key-wise equal general-category maps and equal total row counts, while
a list-valued bundle entry — a route-record detail list or an
installer-breakdown detail list — is the concatenation of A's list then
B's list (respectively B's then A's): detail order follows file order. -/
theorem multi_file_merge_commutes (cfg : Config) (A B : ExcelInput) :
    (∀ k, (analyze_multiple_files cfg [A, B]).1.cnt k =
      (analyze_multiple_files cfg [B, A]).1.cnt k) ∧
    (analyze_multiple_files cfg [A, B]).2.1 =
      (analyze_multiple_files cfg [B, A]).2.1 ∧
    (∀ k, routesShapeOk (analyze_excel_file cfg A).2.2 k = true →
      routesShapeOk (analyze_excel_file cfg B).2.2 k = true →
      ((analyze_excel_file cfg A).2.2.map Prod.fst).count k ≤ 1 →
      ((analyze_excel_file cfg B).2.2.map Prod.fst).count k ≤ 1 →
      routesAt (analyze_multiple_files cfg [A, B]).2.2 k =
        routesAt (analyze_excel_file cfg A).2.2 k ++
          routesAt (analyze_excel_file cfg B).2.2 k ∧
      routesAt (analyze_multiple_files cfg [B, A]).2.2 k =
        routesAt (analyze_excel_file cfg B).2.2 k ++
          routesAt (analyze_excel_file cfg A).2.2 k) ∧
    (∀ k, breakdownShapeOk (analyze_excel_file cfg A).2.2 k = true →
      breakdownShapeOk (analyze_excel_file cfg B).2.2 k = true →
      ((analyze_excel_file cfg A).2.2.map Prod.fst).count k ≤ 1 →
      ((analyze_excel_file cfg B).2.2.map Prod.fst).count k ≤ 1 →
      breakdownAt (analyze_multiple_files cfg [A, B]).2.2 k =
        breakdownAt (analyze_excel_file cfg A).2.2 k ++
          breakdownAt (analyze_excel_file cfg B).2.2 k ∧
      breakdownAt (analyze_multiple_files cfg [B, A]).2.2 k =
        breakdownAt (analyze_excel_file cfg B).2.2 k ++
          breakdownAt (analyze_excel_file cfg A).2.2 k) := by
  refine ⟨?_, ?_, ?_, ?_⟩
  · intro k
    have hA : (analyze_multiple_files cfg [A, B]).1 =
        Counter.update (Counter.update [] (analyze_excel_file cfg A).1)
          (analyze_excel_file cfg B).1 := rfl
    have hB : (analyze_multiple_files cfg [B, A]).1 =
        Counter.update (Counter.update [] (analyze_excel_file cfg B).1)
          (analyze_excel_file cfg A).1 := rfl
    rw [hA, hB, Counter.cnt_update, Counter.cnt_update,
      Counter.cnt_update, Counter.cnt_update]
    omega
  · show (0 + (analyze_excel_file cfg A).2.1) + (analyze_excel_file cfg B).2.1 =
      (0 + (analyze_excel_file cfg B).2.1) + (analyze_excel_file cfg A).2.1
    omega
  · intro k hsa hsb hca hcb
    have h1 := mergeBundle_routesAt (analyze_excel_file cfg A).2.2 [] k
      (Or.inl rfl) (routesShape_of_ok _ k hsa) hca
    have h2 := mergeBundle_routesAt (analyze_excel_file cfg B).2.2
      (mergeBundle [] (analyze_excel_file cfg A).2.2) k h1.2
      (routesShape_of_ok _ k hsb) hcb
    have h3 := mergeBundle_routesAt (analyze_excel_file cfg B).2.2 [] k
      (Or.inl rfl) (routesShape_of_ok _ k hsb) hcb
    have h4 := mergeBundle_routesAt (analyze_excel_file cfg A).2.2
      (mergeBundle [] (analyze_excel_file cfg B).2.2) k h3.2
      (routesShape_of_ok _ k hsa) hca
    have hnil : routesAt ([] : Bundle) k = [] := rfl
    constructor
    · show routesAt (mergeBundle (mergeBundle []
        (analyze_excel_file cfg A).2.2) (analyze_excel_file cfg B).2.2) k = _
      rw [h2.1, h1.1, hnil, List.nil_append]
    · show routesAt (mergeBundle (mergeBundle []
        (analyze_excel_file cfg B).2.2) (analyze_excel_file cfg A).2.2) k = _
      rw [h4.1, h3.1, hnil, List.nil_append]
  · intro k hsa hsb hca hcb
    have h1 := mergeBundle_breakdownAt (analyze_excel_file cfg A).2.2 [] k
      (Or.inl rfl) (breakdownShape_of_ok _ k hsa) hca
    have h2 := mergeBundle_breakdownAt (analyze_excel_file cfg B).2.2
      (mergeBundle [] (analyze_excel_file cfg A).2.2) k h1.2
      (breakdownShape_of_ok _ k hsb) hcb
    have h3 := mergeBundle_breakdownAt (analyze_excel_file cfg B).2.2 [] k
      (Or.inl rfl) (breakdownShape_of_ok _ k hsb) hcb
    have h4 := mergeBundle_breakdownAt (analyze_excel_file cfg A).2.2
      (mergeBundle [] (analyze_excel_file cfg B).2.2) k h3.2
      (breakdownShape_of_ok _ k hsa) hca
    have hnil : breakdownAt ([] : Bundle) k = [] := rfl
    constructor
    · show breakdownAt (mergeBundle (mergeBundle []
        (analyze_excel_file cfg A).2.2) (analyze_excel_file cfg B).2.2) k = _
      rw [h2.1, h1.1, hnil, List.nil_append]
    · show breakdownAt (mergeBundle (mergeBundle []
        (analyze_excel_file cfg B).2.2) (analyze_excel_file cfg A).2.2) k = _
      rw [h4.1, h3.1, hnil, List.nil_append]

/-- Witness for C5 on concrete files: route detail lists concatenate in
file order, and for two files with installer data the installer
breakdown detail lists concatenate in file order as well. -/
theorem multi_file_merge_commutes_witness :
    (analyze_multiple_files noFilter [.ok dfFileA, .ok dfFileB]).1.cnt
        (chars "A") =
      (analyze_multiple_files noFilter [.ok dfFileB, .ok dfFileA]).1.cnt
        (chars "A") ∧
    routesAt (analyze_multiple_files noFilter [.ok dfFileA, .ok dfFileB]).2.2
        (chars "categoria_combinada_detalle") =
      routesAt (analyze_excel_file noFilter (.ok dfFileA)).2.2
          (chars "categoria_combinada_detalle") ++
        routesAt (analyze_excel_file noFilter (.ok dfFileB)).2.2
          (chars "categoria_combinada_detalle") ∧
    breakdownAt
        (analyze_multiple_files noFilter [.ok dfFileAI, .ok dfFileBI]).2.2
        (chars "agente_instalador_detalle") =
      breakdownAt (analyze_excel_file noFilter (.ok dfFileAI)).2.2
          (chars "agente_instalador_detalle") ++
        breakdownAt (analyze_excel_file noFilter (.ok dfFileBI)).2.2
          (chars "agente_instalador_detalle") :=
  ⟨(multi_file_merge_commutes noFilter (.ok dfFileA) (.ok dfFileB)).1 (chars "A"),
   ((multi_file_merge_commutes noFilter (.ok dfFileA) (.ok dfFileB)).2.2.1
     (chars "categoria_combinada_detalle") (by decide) (by decide)
     (by decide) (by decide)).1,
   ((multi_file_merge_commutes noFilter (.ok dfFileAI) (.ok dfFileBI)).2.2.2
     (chars "agente_instalador_detalle") (by decide) (by decide)
     (by decide) (by decide)).1⟩

theorem count_decEq_eq {α : Type} [DecidableEq α] [BEq α] [LawfulBEq α]
    (a : α) (l : List α) :
    l.count a = @List.count α (@instBEqOfDecidableEq α inferInstance) a l := by
  unfold List.count
  apply List.countP_congr
  intro x hx
  constructor
  · intro h
    have hx2 : x = a := by simpa using h
    show decide (x = a) = true
    simp [hx2]
  · intro h
    have hx2 : x = a := of_decide_eq_true h
    simp [hx2]

theorem installer_keys_freq_sum (details : List RouteRecord) (a : Str) :
    installerAgentTotal details a =
    ((installerFiltered details).filter
      (fun r => decide (r.agente_instalador = a))).length := by
  unfold installerAgentTotal installerKeys installerFreq
  rw [List.map_congr_left (fun k _ => count_decEq_eq k
    ((installerFiltered details).map keyOfRecord))]
  rw [List.sum_map_count_dedup_filter_eq_countP, List.countP_eq_length_filter,
    List.filter_map, List.length_map]
  rfl

theorem installer_filtered_agent (details : List RouteRecord) (a : Str)
    (ha : a ≠ sinAsignar) :
    (installerFiltered details).filter
        (fun r => decide (r.agente_instalador = a)) =
      details.filter (fun r => decide (r.agente_instalador = a)) := by
  unfold installerFiltered
  rw [List.filter_filter]
  exact List.filter_congr (fun r hr => by
    by_cases h : r.agente_instalador = a
    · simp [h, ha]
    · simp [h])

theorem installer_sum_div (details : List RouteRecord) (T : Nat)
    (ks : List GroupKey) :
    (ks.map (fun k =>
      (installerFreq details k : ℚ) / (T : ℚ) * 100)).sum =
    ((ks.map (installerFreq details)).sum : ℚ) / (T : ℚ) * 100 := by
  induction ks with
  | nil => simp
  | cons k t ih =>
    rw [List.map_cons, List.sum_cons, ih, List.map_cons, List.sum_cons]
    push_cast
    ring

/-- C3: the Installer Breakdown never contains the `"Sin asignar"`
sentinel agent; for every non-sentinel agent the frequencies of its
records sum to the number of that agent's input records; and for every
agent appearing in the breakdown the `Porcentaje_Agente` values sum to
exactly 100 (in exact rational arithmetic). -/
theorem installer_breakdown_invariants (details : List RouteRecord) :
    (∀ rec ∈ generate_installer_breakdown details,
      rec.agente_instalador ≠ sinAsignar) ∧
    (∀ a, a ≠ sinAsignar →
      (((generate_installer_breakdown details).filter
          (fun r => decide (r.agente_instalador = a))).map
        (·.frecuencia)).sum =
      (details.filter (fun r => decide (r.agente_instalador = a))).length) ∧
    (∀ a, (∃ rec ∈ generate_installer_breakdown details,
        rec.agente_instalador = a) →
      (((generate_installer_breakdown details).filter
          (fun r => decide (r.agente_instalador = a))).map
        (·.porcentaje_agente)).sum = 100) := by
  by_cases hd : details.isEmpty
  · have hout : generate_installer_breakdown details = [] := by
      unfold generate_installer_breakdown
      rw [if_pos hd]
    have hdet : details = [] := List.isEmpty_iff.mp hd
    subst hdet
    refine ⟨?_, ?_, ?_⟩
    · intro rec hrec; rw [hout] at hrec; cases hrec
    · intro a ha; rw [hout]; rfl
    · rintro a ⟨rec, hrec, -⟩; rw [hout] at hrec; cases hrec
  · by_cases hf : (installerFiltered details).isEmpty
    · have hout : generate_installer_breakdown details = [] := by
        unfold generate_installer_breakdown
        rw [if_neg hd, if_pos hf]
      have hfe : installerFiltered details = [] := List.isEmpty_iff.mp hf
      refine ⟨?_, ?_, ?_⟩
      · intro rec hrec; rw [hout] at hrec; cases hrec
      · intro a ha
        rw [hout]
        have hnil : details.filter
            (fun r => decide (r.agente_instalador = a)) = [] := by
          rw [List.filter_eq_nil_iff]
          intro r hr hp
          have hsent := List.filter_eq_nil_iff.mp hfe r hr
          unfold installerFiltered at hsent
          have h1 : r.agente_instalador = sinAsignar := by
            by_cases h : r.agente_instalador = sinAsignar
            · exact h
            · exact absurd (by simp [h]) hsent
          exact ha (by rw [← of_decide_eq_true hp, h1])
        rw [hnil]
        rfl
      · rintro a ⟨rec, hrec, -⟩; rw [hout] at hrec; cases hrec
    · have hout : generate_installer_breakdown details =
          isortBy breakdownLe
            ((installerKeys details).map (mkInstallerRecord details)) := by
        unfold generate_installer_breakdown
        rw [if_neg hd, if_neg hf]
      have hperm : List.Perm (generate_installer_breakdown details)
          ((installerKeys details).map (mkInstallerRecord details)) := by
        rw [hout]
        exact perm_isortBy _ _
      have hgf : ∀ a : Str, (installerKeys details).filter
          ((fun r => decide (r.agente_instalador = a)) ∘ mkInstallerRecord details) =
          (installerKeys details).filter (fun k => decide (k.1 = a)) :=
        fun a => rfl
      refine ⟨?_, ?_, ?_⟩
      · intro rec hrec
        obtain ⟨k, hk, hmk⟩ := List.mem_map.mp (hperm.mem_iff.mp hrec)
        obtain ⟨r, hr, hkey⟩ := List.mem_map.mp (List.mem_dedup.mp hk)
        have hra := of_decide_eq_true (List.mem_filter.mp hr).2
        have hagent : rec.agente_instalador = r.agente_instalador := by
          rw [← hmk, ← hkey]
          rfl
        rw [hagent]
        exact hra
      · intro a ha
        rw [((hperm.filter _).map (·.frecuencia)).sum_eq, List.filter_map,
          hgf a, List.map_map]
        have h1 : (((installerKeys details).filter
            (fun k => decide (k.1 = a))).map
            ((·.frecuencia) ∘ mkInstallerRecord details)).sum =
            installerAgentTotal details a := rfl
        rw [h1, installer_keys_freq_sum, installer_filtered_agent details a ha]
      · rintro a ⟨rec, hrec, hagent⟩
        obtain ⟨k, hk, hmk⟩ := List.mem_map.mp (hperm.mem_iff.mp hrec)
        subst hmk
        have hk1 : k.1 = a := hagent
        have hkL : k ∈ (installerFiltered details).map keyOfRecord :=
          List.mem_dedup.mp hk
        have hfreq1 : 1 ≤ installerFreq details k := by
          unfold installerFreq
          exact List.one_le_count_iff.mpr hkL
        have hkfil : k ∈ (installerKeys details).filter
            (fun k => decide (k.1 = a)) :=
          List.mem_filter.mpr ⟨hk, decide_eq_true hk1⟩
        have hTpos : 1 ≤ installerAgentTotal details a := by
          have hmem : installerFreq details k ∈
              (((installerKeys details).filter
                (fun k => decide (k.1 = a))).map (installerFreq details)) :=
            List.mem_map.mpr ⟨k, hkfil, rfl⟩
          calc 1 ≤ installerFreq details k := hfreq1
            _ ≤ (((installerKeys details).filter
                (fun k => decide (k.1 = a))).map (installerFreq details)).sum :=
              List.single_le_sum (fun x _ => Nat.zero_le x) _ hmem
            _ = installerAgentTotal details a := rfl
        have hTQ : ((installerAgentTotal details a : ℚ)) ≠ 0 := by
          have : installerAgentTotal details a ≠ 0 := by omega
          exact_mod_cast this
        rw [((hperm.filter _).map (·.porcentaje_agente)).sum_eq, List.filter_map,
          hgf a, List.map_map]
        rw [List.map_congr_left (fun k2 hk2 => by
          have hk21 : k2.1 = a := of_decide_eq_true (List.mem_filter.mp hk2).2
          show ((·.porcentaje_agente) ∘ mkInstallerRecord details) k2 =
            (installerFreq details k2 : ℚ) /
              ((installerAgentTotal details a : Nat) : ℚ) * 100
          rw [show ((·.porcentaje_agente) ∘ mkInstallerRecord details) k2 =
            (installerFreq details k2 : ℚ) /
              ((installerAgentTotal details k2.1 : Nat) : ℚ) * 100 from rfl, hk21])]
        rw [installer_sum_div]
        rw [show (((installerKeys details).filter
            (fun k => decide (k.1 = a))).map (installerFreq details)).sum =
            installerAgentTotal details a from rfl]
        rw [div_self hTQ, one_mul]

/-- Witness for C3 on records of agents `Ana` (3 rows) and `Bob`. -/
theorem installer_breakdown_invariants_witness :
    (∀ rec ∈ generate_installer_breakdown detailsC3,
      rec.agente_instalador ≠ sinAsignar) ∧
    (((generate_installer_breakdown detailsC3).filter
        (fun r => decide (r.agente_instalador = chars "Ana"))).map
      (·.frecuencia)).sum =
      (detailsC3.filter
        (fun r => decide (r.agente_instalador = chars "Ana"))).length ∧
    (((generate_installer_breakdown detailsC3).filter
        (fun r => decide (r.agente_instalador = chars "Ana"))).map
      (·.porcentaje_agente)).sum = 100 := by
  have hmem : mkInstallerRecord detailsC3
      (chars "Ana", chars "Red", chars "Slow", [], chars "Red | Slow") ∈
      generate_installer_breakdown detailsC3 := by
    have hout : generate_installer_breakdown detailsC3 =
        isortBy breakdownLe
          ((installerKeys detailsC3).map (mkInstallerRecord detailsC3)) := by
      unfold generate_installer_breakdown
      rw [if_neg (by decide), if_neg (by decide)]
    rw [hout]
    exact (perm_isortBy breakdownLe _).mem_iff.mpr
      (List.mem_map.mpr ⟨(chars "Ana", chars "Red", chars "Slow", [],
        chars "Red | Slow"), by decide, rfl⟩)
  exact ⟨(installer_breakdown_invariants detailsC3).1,
    (installer_breakdown_invariants detailsC3).2.1 (chars "Ana") (by decide),
    (installer_breakdown_invariants detailsC3).2.2 (chars "Ana")
      ⟨mkInstallerRecord detailsC3
        (chars "Ana", chars "Red", chars "Slow", [], chars "Red | Slow"),
       hmem, rfl⟩⟩
